import Mathlib

/-!
# newrelic-context: instrumentation hooks for gorm, redis and context

A shallow embedding of `context.go`, `nrgorm/gorm.go` and `nrredis/redis.go`.

* The APM agent is a stamp counter together with a trace of what the hooks did
  to it: which start times were handed out, which segments were built by a
  segment factory and which were ended.
* A Go panic is the `Except.error` branch of a hook's result.
* Values of Go's empty interface that travel through a settings bag or a
  context are the constructors of `Value`.
-/

set_option autoImplicit false

namespace NewrelicContext

/-! ## The APM agent collaborator -/

/-- Transaction handle of the agent (`newrelic.Transaction`); opaque to this package. -/
structure Transaction where
  id : Nat
  deriving DecidableEq, Repr

/-- Start time of a segment (`newrelic.SegmentStartTime`): the transaction it was
taken from and the stamp the transaction handed out. -/
structure SegmentStartTime where
  txn : Transaction
  stamp : Nat
  deriving DecidableEq, Repr

/-- Datastore categories of the agent used by this package (`newrelic.DatastoreProduct`). -/
inductive DatastoreProduct where
  | DatastorePostgres
  | DatastoreMySQL
  | DatastoreSQLite
  | DatastoreMSSQL
  | DatastoreRedis
  deriving DecidableEq, Repr

export DatastoreProduct (DatastorePostgres DatastoreMySQL DatastoreSQLite DatastoreMSSQL
  DatastoreRedis)

/-- Fields of `newrelic.DatastoreSegment` that this package fills in. -/
structure DatastoreSegment where
  StartTime : SegmentStartTime
  Product : DatastoreProduct
  ParameterizedQuery : String
  Operation : String
  Collection : String
  deriving DecidableEq, Repr

/-- What a hook can do to the agent. -/
inductive Event where
  /-- `txn.StartSegmentNow()` handed out this start time. -/
  | started (t : SegmentStartTime)
  /-- A segment factory (`segmentBuilder`) was called and built this segment. -/
  | built (s : DatastoreSegment)
  /-- `End()` was called on this segment. -/
  | ended (s : DatastoreSegment)
  deriving DecidableEq, Repr

/-- State of the agent: the next stamp and everything that happened so far. -/
structure World where
  stamp : Nat
  trace : List Event
  deriving DecidableEq, Repr

/-- Appends one event to the trace. -/
def World.emit (w : World) (e : Event) : World :=
  { w with trace := w.trace ++ [e] }

/-- Agent call `txn.StartSegmentNow()`: hands out the next stamp of the agent, so
no start time is handed out twice. -/
def Transaction.StartSegmentNow (txn : Transaction) (w : World) : SegmentStartTime × World :=
  let t : SegmentStartTime := { txn := txn, stamp := w.stamp }
  (t, { stamp := w.stamp + 1, trace := w.trace ++ [Event.started t] })

/-- Agent call `segment.End()`. -/
def DatastoreSegment.End (s : DatastoreSegment) (w : World) : World :=
  w.emit (Event.ended s)

/-! ## Dynamic values and panics -/

/-- Values of Go's `interface{}` that can sit in a settings bag or a context. -/
inductive Value where
  /-- The nil interface. -/
  | nil
  /-- Dynamic type `newrelic.Transaction`. -/
  | transaction (t : Transaction)
  /-- Dynamic type `newrelic.SegmentStartTime`. -/
  | segmentStartTime (t : SegmentStartTime)
  /-- Dynamic type `bool`. -/
  | bool (b : Bool)
  /-- Any other dynamic type. -/
  | other (tag : String)
  deriving DecidableEq, Repr

/-- Run-time panics of the Go code. -/
inductive Panic where
  /-- A failed single-value type assertion `x.(T)`; `want` names `T`. -/
  | interfaceConversion (want : String)
  deriving DecidableEq, Repr

/-- Type assertion `v.(newrelic.Transaction)`. -/
def Value.assertTransaction : Value → Except Panic Transaction
  | Value.transaction t => Except.ok t
  | _ => Except.error (Panic.interfaceConversion "newrelic.Transaction")

/-- Type assertion `v.(newrelic.SegmentStartTime)`. -/
def Value.assertSegmentStartTime : Value → Except Panic SegmentStartTime
  | Value.segmentStartTime t => Except.ok t
  | _ => Except.error (Panic.interfaceConversion "newrelic.SegmentStartTime")

/-! ## Strings -/

/-- Go `strings.Split(s, sep)` for a separator of one character, on character lists. -/
def splitChars (sep : Char) : List Char → List (List Char)
  | [] => [[]]
  | c :: cs =>
    if c = sep then [] :: splitChars sep cs
    else
      match splitChars sep cs with
      | [] => [[c]]
      | h :: t => (c :: h) :: t

/-- The expression `strings.Split(s, " ")[0]`. -/
def splitSpaceFirst (s : String) : String :=
  String.mk ((splitChars ' ' s.data).headD [])

/-- Go `strings.ToUpper`: runes below 128 are mapped as Go maps them (`a`..`z` to
`A`..`Z`, the rest unchanged); the case table of the Unicode package for the other
runes is the parameter `unicodeUpper`. -/
def ToUpper (unicodeUpper : Char → Char) (s : String) : String :=
  String.mk (s.data.map fun c => if c.val < 128 then c.toUpper else unicodeUpper c)

/-- The part of a text before its first space character U+0020; the whole text
when it has no space. -/
def beforeFirstSpace (s : String) : String :=
  String.mk (s.data.takeWhile (fun c => c ≠ ' '))

/-- The first whitespace-delimited token of a text, in the words of the
specification: leading whitespace is skipped and the token runs up to the
next whitespace character. -/
def firstWhitespaceToken (s : String) : String :=
  String.mk ((s.data.dropWhile Char.isWhitespace).takeWhile (fun c => !c.isWhitespace))

/-! ## The ORM collaborator: scope and settings bag -/

/-- State of one ORM call (`gorm.Scope`) as far as the hooks can see it: the
settings of the scope's db (`Get`/`Set`), the id of this scope instance, the
query text and the table name. -/
structure Scope where
  values : String → Option Value
  instanceID : String
  SQL : String
  tableName : String

/-- ORM call `scope.Get(name)`: the value and the `ok` flag as an `Option`. -/
def Scope.Get (scope : Scope) (name : String) : Option Value :=
  scope.values name

/-- ORM call `scope.Set(name, value)`. -/
def Scope.Set (scope : Scope) (name : String) (value : Value) : Scope :=
  { scope with values := fun k => if k = name then some value else scope.values k }

/-- ORM call `scope.InstanceGet(name)`: reads the setting `name + instanceID`. -/
def Scope.InstanceGet (scope : Scope) (name : String) : Option Value :=
  scope.Get (name ++ scope.instanceID)

/-- ORM call `scope.InstanceSet(name, value)`: writes the setting `name + instanceID`. -/
def Scope.InstanceSet (scope : Scope) (name : String) (value : Value) : Scope :=
  scope.Set (name ++ scope.instanceID) value

/-- ORM call `scope.TableName()`. -/
def Scope.TableName (scope : Scope) : String :=
  scope.tableName

/-! ## nrgorm/gorm.go -/

namespace nrgorm

def txnGormKey : String := "newrelicTransaction"

def startTimeKey : String := "newrelicStartTime"

/-- The receiver type `callbacks`. -/
structure callbacks where
  product : DatastoreProduct
  deriving DecidableEq, Repr

def newCallbacks (product : DatastoreProduct) : callbacks :=
  { product := product }

/-- The replaceable segment factory of nrgorm: builds the datastore segment. -/
def segmentBuilder (startTime : SegmentStartTime) (product : DatastoreProduct)
    (query operation collection : String) (w : World) : DatastoreSegment × World :=
  let seg : DatastoreSegment :=
    { StartTime := startTime, Product := product, ParameterizedQuery := query,
      Operation := operation, Collection := collection }
  (seg, w.emit (Event.built seg))

/-- Method `(c *callbacks) before`. -/
def callbacks.before (_c : callbacks) (scope : Scope) (w : World) :
    Except Panic (Scope × World) :=
  match scope.Get txnGormKey with
  | none => Except.ok (scope, w)
  | some txn =>
    match txn.assertTransaction with
    | Except.error p => Except.error p
    | Except.ok ttxn =>
      let (t, w1) := ttxn.StartSegmentNow w
      Except.ok (scope.Set startTimeKey (Value.segmentStartTime t), w1)

/-- Method `(c *callbacks) after`. -/
def callbacks.after (unicodeUpper : Char → Char) (c : callbacks) (scope : Scope)
    (operation : String) (w : World) : Except Panic (Scope × World) :=
  match scope.Get startTimeKey with
  | none => Except.ok (scope, w)
  | some startTime =>
    let operation :=
      if operation = "" then ToUpper unicodeUpper (splitSpaceFirst scope.SQL) else operation
    match startTime.assertSegmentStartTime with
    | Except.error p => Except.error p
    | Except.ok st =>
      let (seg, w1) := segmentBuilder st c.product scope.SQL operation scope.TableName w
      let w2 := seg.End w1
      match scope.InstanceGet "gorm:started_transaction" with
      | none => Except.ok (scope.Set startTimeKey Value.nil, w2)
      | some _ =>
        match (scope.Get txnGormKey).getD Value.nil |>.assertTransaction with
        | Except.error p => Except.error p
        | Except.ok ttxn =>
          let (t, w3) := ttxn.StartSegmentNow w2
          Except.ok (scope.Set startTimeKey (Value.segmentStartTime t), w3)

/-- Method `(c *callbacks) commitOrRollback`. -/
def callbacks.commitOrRollback (c : callbacks) (scope : Scope) (w : World) :
    Except Panic (Scope × World) :=
  match scope.Get startTimeKey with
  | none => Except.ok (scope, w)
  | some Value.nil => Except.ok (scope, w)
  | some startTime =>
    match startTime.assertSegmentStartTime with
    | Except.error p => Except.error p
    | Except.ok st =>
      let (seg, w1) := segmentBuilder st c.product "" "COMMIT/ROLLBACK" scope.TableName w
      Except.ok (scope, seg.End w1)

def callbacks.beforeCreate (c : callbacks) := c.before
def callbacks.afterCreate (u : Char → Char) (c : callbacks) (scope : Scope) :=
  c.after u scope "INSERT"
def callbacks.beforeQuery (c : callbacks) := c.before
def callbacks.afterQuery (u : Char → Char) (c : callbacks) (scope : Scope) :=
  c.after u scope "SELECT"
def callbacks.beforeUpdate (c : callbacks) := c.before
def callbacks.afterUpdate (u : Char → Char) (c : callbacks) (scope : Scope) :=
  c.after u scope "UPDATE"
def callbacks.beforeDelete (c : callbacks) := c.before
def callbacks.afterDelete (u : Char → Char) (c : callbacks) (scope : Scope) :=
  c.after u scope "DELETE"
def callbacks.beforeRowQuery (c : callbacks) := c.before
def callbacks.afterRowQuery (u : Char → Char) (c : callbacks) (scope : Scope) :=
  c.after u scope ""

/-- Callback chains of the ORM on which hooks are hung. -/
inductive Chain where
  | create
  | query
  | update
  | delete
  | row_query
  deriving DecidableEq, Repr

/-- The hook functions of `callbacks` as method values. -/
inductive Hook where
  | beforeCreate
  | afterCreate
  | beforeQuery
  | afterQuery
  | beforeUpdate
  | afterUpdate
  | beforeDelete
  | afterDelete
  | beforeRowQuery
  | afterRowQuery
  | commitOrRollback
  deriving DecidableEq, Repr

/-- Calling a method value of the receiver `c` on a scope. -/
def Hook.run (u : Char → Char) (c : callbacks) :
    Hook → Scope → World → Except Panic (Scope × World)
  | Hook.beforeCreate => c.beforeCreate
  | Hook.afterCreate => c.afterCreate u
  | Hook.beforeQuery => c.beforeQuery
  | Hook.afterQuery => c.afterQuery u
  | Hook.beforeUpdate => c.beforeUpdate
  | Hook.afterUpdate => c.afterUpdate u
  | Hook.beforeDelete => c.beforeDelete
  | Hook.afterDelete => c.afterDelete u
  | Hook.beforeRowQuery => c.beforeRowQuery
  | Hook.afterRowQuery => c.afterRowQuery u
  | Hook.commitOrRollback => c.commitOrRollback

/-- Runs hooks one after the other on the same scope; a panic stops the run. -/
def runHooks (u : Char → Char) (c : callbacks) :
    List Hook → Scope → World → Except Panic (Scope × World)
  | [], scope, w => Except.ok (scope, w)
  | h :: hs, scope, w =>
    match h.run u c scope w with
    | Except.error p => Except.error p
    | Except.ok (scope1, w1) => runHooks u c hs scope1 w1

/-- The before-hook that `registerCallbacks` hangs on a chain. -/
def Chain.beforeHook : Chain → Hook
  | Chain.create => Hook.beforeCreate
  | Chain.query => Hook.beforeQuery
  | Chain.update => Hook.beforeUpdate
  | Chain.delete => Hook.beforeDelete
  | Chain.row_query => Hook.beforeRowQuery

/-- The after-hook that `registerCallbacks` hangs on a chain. -/
def Chain.afterHook : Chain → Hook
  | Chain.create => Hook.afterCreate
  | Chain.query => Hook.afterQuery
  | Chain.update => Hook.afterUpdate
  | Chain.delete => Hook.afterDelete
  | Chain.row_query => Hook.afterRowQuery

/-- Whether `registerCallbacks` hangs the commit-or-rollback hook on a chain. -/
def Chain.hasCommitOrRollback : Chain → Bool
  | Chain.create => true
  | Chain.update => true
  | Chain.delete => true
  | _ => false

/-- The operation label the after-hook of a chain passes to `after`. -/
def Chain.operation : Chain → String
  | Chain.create => "INSERT"
  | Chain.query => "SELECT"
  | Chain.update => "UPDATE"
  | Chain.delete => "DELETE"
  | Chain.row_query => ""

/-- The hooks of this package on a chain, in the order in which the chain runs
them: before the ORM step, after it, and after the commit-or-rollback step. -/
def Chain.hooks (ch : Chain) : List Hook :=
  [ch.beforeHook, ch.afterHook] ++ (if ch.hasCommitOrRollback then [Hook.commitOrRollback] else [])

/-- One complete hook cycle of an ORM call on a chain. The scope carries the query
text and the table name of the call as the after-hook finds them; the
before-hook reads neither. -/
def cycle (u : Char → Char) (c : callbacks) (ch : Chain) (scope : Scope) (w : World) :
    Except Panic (Scope × World) :=
  runHooks u c ch.hooks scope w

/-- One registration on a callback chain of the ORM (`gorm.CallbackProcessor`):
the chain, the name of the callback it must run before or after (empty when
unset), its own name, and the method value that was registered. -/
structure CallbackProcessor where
  kind : Chain
  before : String
  after : String
  name : String
  receiver : callbacks
  processor : Hook
  deriving DecidableEq, Repr

/-- Database handle of the ORM (`gorm.DB`): the name of its dialect, its settings
and the callbacks registered on it. -/
structure DB where
  dialect : String
  values : String → Option Value
  callbacks : List CallbackProcessor

/-- ORM call `db.Set(name, value)`: a clone of the db with the setting stored. -/
def DB.Set (db : DB) (name : String) (value : Value) : DB :=
  { db with values := fun k => if k = name then some value else db.values k }

/-- ORM call `db.Callback().<Chain>().Before(anchor).Register(name, fn)`. -/
def DB.RegisterBefore (db : DB) (kind : Chain) (anchor name : String) (c : nrgorm.callbacks)
    (fn : Hook) : DB :=
  { db with callbacks := db.callbacks ++ [⟨kind, anchor, "", name, c, fn⟩] }

/-- ORM call `db.Callback().<Chain>().After(anchor).Register(name, fn)`. -/
def DB.RegisterAfter (db : DB) (kind : Chain) (anchor name : String) (c : nrgorm.callbacks)
    (fn : Hook) : DB :=
  { db with callbacks := db.callbacks ++ [⟨kind, "", anchor, name, c, fn⟩] }

/-- Function `SetTxnToGorm` of nrgorm. -/
def SetTxnToGorm (txn : Transaction) (db : DB) : DB :=
  db.Set txnGormKey (Value.transaction txn)

/-- Function `registerCallbacks`. -/
def registerCallbacks (db : DB) (name : String) (c : callbacks) : DB :=
  let beforeName := "newrelic:" ++ name ++ "_before"
  let afterName := "newrelic:" ++ name ++ "_after"
  let gormCallbackName := "gorm:" ++ name
  if name = "create" then
    ((db.RegisterBefore Chain.create gormCallbackName beforeName c Hook.beforeCreate
      ).RegisterAfter Chain.create gormCallbackName afterName c Hook.afterCreate
      ).RegisterAfter Chain.create "gorm:commit_or_rollback_transaction"
        ("newrelic:commit_or_rollback_transaction_" ++ name) c Hook.commitOrRollback
  else if name = "query" then
    (db.RegisterBefore Chain.query gormCallbackName beforeName c Hook.beforeQuery
      ).RegisterAfter Chain.query gormCallbackName afterName c Hook.afterQuery
  else if name = "update" then
    ((db.RegisterBefore Chain.update gormCallbackName beforeName c Hook.beforeUpdate
      ).RegisterAfter Chain.update gormCallbackName afterName c Hook.afterUpdate
      ).RegisterAfter Chain.update "gorm:commit_or_rollback_transaction"
        ("newrelic:commit_or_rollback_transaction_" ++ name) c Hook.commitOrRollback
  else if name = "delete" then
    ((db.RegisterBefore Chain.delete gormCallbackName beforeName c Hook.beforeDelete
      ).RegisterAfter Chain.delete gormCallbackName afterName c Hook.afterDelete
      ).RegisterAfter Chain.delete "gorm:commit_or_rollback_transaction"
        ("newrelic:commit_or_rollback_transaction_" ++ name) c Hook.commitOrRollback
  else if name = "row_query" then
    (db.RegisterBefore Chain.row_query gormCallbackName beforeName c Hook.beforeRowQuery
      ).RegisterAfter Chain.row_query gormCallbackName afterName c Hook.afterRowQuery
  else db

/-- Function `AddGormCallbacks`. -/
def AddGormCallbacks (db : DB) : DB :=
  let dialect := db.dialect
  let product : Option DatastoreProduct :=
    if dialect = "postgres" then some DatastorePostgres
    else if dialect = "mysql" then some DatastoreMySQL
    else if dialect = "sqlite3" then some DatastoreSQLite
    else if dialect = "mssql" then some DatastoreMSSQL
    else none
  match product with
  | none => db
  | some product =>
    let callbacks := newCallbacks product
    let db := registerCallbacks db "transaction" callbacks
    let db := registerCallbacks db "create" callbacks
    let db := registerCallbacks db "query" callbacks
    let db := registerCallbacks db "update" callbacks
    let db := registerCallbacks db "delete" callbacks
    registerCallbacks db "row_query" callbacks

/-- One ORM call of a chain of calls: its callback chain, the id of its scope
instance, the query text it issues, its table, and whether the ORM wrapped it
into an implicit transaction. -/
structure Call where
  chain : Chain
  instanceID : String
  SQL : String
  tableName : String
  startedTransaction : Bool

/-- The scope of a call made on a db whose settings are `values`, as the hooks of
this package find it: the ORM clones the settings into the scope, and its
begin-transaction step has set the instance flag `gorm:started_transaction` when
it started an implicit transaction. -/
def Call.scope (call : Call) (values : String → Option Value) : Scope :=
  let scope : Scope :=
    { values := values, instanceID := call.instanceID, SQL := call.SQL,
      tableName := call.tableName }
  if call.startedTransaction then
    scope.InstanceSet "gorm:started_transaction" (Value.bool true)
  else scope

/-- A chain of calls in which each call is made on the db the previous call
returned, so each cycle starts from the settings the previous cycle left behind.
Returns the events of each cycle, the settings left at the end and the agent. -/
def runCalls (u : Char → Char) (c : callbacks) :
    (String → Option Value) → World → List Call →
      Except Panic (List (List Event) × (String → Option Value) × World)
  | values, w, [] => Except.ok ([], values, w)
  | values, w, call :: rest =>
    match cycle u c call.chain (call.scope values) w with
    | Except.error p => Except.error p
    | Except.ok (scope1, w1) =>
      match runCalls u c scope1.values w1 rest with
      | Except.error p => Except.error p
      | Except.ok (traces, values2, w2) =>
        Except.ok (w1.trace.drop w.trace.length :: traces, values2, w2)

/-- The same calls, each made on a fresh clone of the settings `fresh`. -/
def runCallsFresh (u : Char → Char) (c : callbacks) (fresh : String → Option Value) :
    World → List Call → Except Panic (List (List Event) × World)
  | w, [] => Except.ok ([], w)
  | w, call :: rest =>
    match cycle u c call.chain (call.scope fresh) w with
    | Except.error p => Except.error p
    | Except.ok (_, w1) =>
      match runCallsFresh u c fresh w1 rest with
      | Except.error p => Except.error p
      | Except.ok (traces, w2) => Except.ok (w1.trace.drop w.trace.length :: traces, w2)

end nrgorm

/-! ## nrredis/redis.go -/

namespace nrredis

/-- Go `error` value returned by a dispatch function. -/
structure Error where
  msg : String
  deriving DecidableEq, Repr

/-- Command of the cache client (`redis.Cmder`), known by its textual form. -/
structure Cmder where
  text : String
  deriving DecidableEq, Repr

/-- Method `cmd.String()`. -/
def Cmder.String (cmd : Cmder) : String :=
  cmd.text

/-- Dispatch function of the client, `func(cmd redis.Cmder) error`: it may act on
the agent and returns nil (`none`) or an error. -/
abbrev Process := Cmder → World → Option Error × World

/-- Cache client (`redis.Client` of `gopkg.in/redis.v5`): its context, its
built-in dispatch over the connection (method `defaultProcess`), the replacement
dispatch installed by `WrapProcess` (field `process`, nil until then), and its
built-in execution of the commands queued on a pipeline. -/
structure Client where
  ctx : Nat
  defaultProcess : Process
  process : Option Process
  pipelineProcessCmds : List Cmder → World → Option Error × World

/-- Method `c.Process(cmd)`, through which the commands issued on the client are
dispatched: the installed replacement when there is one, the built-in dispatch
otherwise. -/
def Client.Process (c : Client) : nrredis.Process := fun cmd w =>
  match c.process with
  | some process => process cmd w
  | none => c.defaultProcess cmd w

/-- Method `c.Pipelined(...)` for the commands queued on a pipeline of the
client: they are executed together by the built-in pipeline execution and do not
pass through `Process`. -/
def Client.Pipelined (c : Client) (cmds : List Cmder) (w : World) : Option Error × World :=
  c.pipelineProcessCmds cmds w

/-- Method `c.Context()`. -/
def Client.Context (c : Client) : Nat :=
  c.ctx

/-- Method `c.WithContext(ctx)`: a copy of the client, with whatever dispatch is
installed on it, and the context set. -/
def Client.WithContext (c : Client) (ctx : Nat) : Client :=
  { c with ctx := ctx }

/-- Method `c.WrapProcess(fn)`: the library hands the built-in dispatch to `fn`
(`c.process = fn(c.defaultProcess)`) and installs the result, so a replacement
installed before is discarded. -/
def Client.WrapProcess (c : Client) (fn : nrredis.Process → nrredis.Process) : Client :=
  { c with process := some (fn c.defaultProcess) }

/-- The replaceable segment factory of nrredis: takes the start time from the
transaction and builds the datastore segment. -/
def segmentBuilder (txn : Transaction) (product : DatastoreProduct) (operation : String)
    (w : World) : DatastoreSegment × World :=
  let (st, w1) := txn.StartSegmentNow w
  let seg : DatastoreSegment :=
    { StartTime := st, Product := product, ParameterizedQuery := "",
      Operation := operation, Collection := "" }
  (seg, w1.emit (Event.built seg))

/-- Function `WrapRedisClient` of nrredis. In the wrapped dispatch function the
`defer` statement evaluates `segmentBuilder(...)` at once and runs `End()` on
its result when the function returns. -/
def WrapRedisClient (txn : Transaction) (c : Client) : Client :=
  let ctx := c.Context
  let copy := c.WithContext ctx
  copy.WrapProcess fun oldProcess => fun cmd w =>
    let (seg, w1) := segmentBuilder txn DatastoreRedis (splitSpaceFirst cmd.String) w
    let (err, w2) := oldProcess cmd w1
    (err, seg.End w2)

end nrredis

/-! ## context.go -/

namespace nrcontext

/-- Keys under which values are stored in a context: the keys of the type
`contextKey` of this package, and the keys of any other type. -/
inductive Key where
  | contextKey (n : Int)
  | foreign (tag : String)
  deriving DecidableEq, Repr

def txnKey : Key := Key.contextKey 0

/-- Context objects of the Go library: the empty root, a node made by
`context.WithValue`, and a node of another derived kind (cancellation, deadline)
that passes lookups on to its parent. Parents are references into the heap. -/
inductive ContextNode where
  | emptyCtx
  | valueCtx (parent : Nat) (key : Key) (val : Value)
  | cancelCtx (parent : Nat)
  deriving DecidableEq, Repr

/-- The context objects allocated so far; a `context.Context` is the index of
one of them (the nil interface is not a context). -/
abbrev Heap := List ContextNode

/-- The parent a node refers to. -/
def ContextNode.parent : ContextNode → Option Nat
  | ContextNode.emptyCtx => none
  | ContextNode.valueCtx p _ _ => some p
  | ContextNode.cancelCtx p => some p

/-- Whether every node refers to a parent allocated before it, as is the case
for any heap built by allocation. -/
def Heap.wellFormed (heap : Heap) : Bool :=
  (List.range heap.length).all fun i =>
    match heap[i]? with
    | none => true
    | some node =>
      match node.parent with
      | none => true
      | some p => decide (p < i)

/-- Library call `c.Value(key)`, walking at most `fuel` nodes up the chain. -/
def lookup (heap : Heap) : Nat → Nat → Key → Value
  | 0, _, _ => Value.nil
  | fuel + 1, c, key =>
    match heap[c]? with
    | none => Value.nil
    | some ContextNode.emptyCtx => Value.nil
    | some (ContextNode.valueCtx parent k val) =>
      if k = key then val else lookup heap fuel parent key
    | some (ContextNode.cancelCtx parent) => lookup heap fuel parent key

/-- Library call `c.Value(key)`: a chain that starts at `c` has at most `c + 1`
nodes in a well-formed heap. -/
def Value (heap : Heap) (c : Nat) (key : Key) : NewrelicContext.Value :=
  lookup heap (c + 1) c key

/-- Library call `context.WithValue(parent, key, val)`: allocates a node and
returns the heap with it and the reference to it. -/
def WithValue (heap : Heap) (parent : Nat) (key : Key) (val : NewrelicContext.Value) :
    Heap × Nat :=
  (heap ++ [ContextNode.valueCtx parent key val], heap.length)

/-- Function `ContextWithTxn`. -/
def ContextWithTxn (heap : Heap) (c : Nat) (txn : Transaction) : Heap × Nat :=
  WithValue heap c txnKey (Value.transaction txn)

/-- Function `GetTnxFromContext`. -/
def GetTnxFromContext (heap : Heap) (c : Nat) : Except Panic Transaction :=
  let tnx := Value heap c txnKey
  tnx.assertTransaction

/-- Function `SetTxnToGorm` of the root package. -/
def SetTxnToGorm (heap : Heap) (ctx : Nat) (db : nrgorm.DB) : Except Panic nrgorm.DB :=
  match GetTnxFromContext heap ctx with
  | Except.error p => Except.error p
  | Except.ok txn => Except.ok (nrgorm.SetTxnToGorm txn db)

/-- Function `WrapRedisClient` of the root package. -/
def WrapRedisClient (heap : Heap) (ctx : Nat) (c : nrredis.Client) :
    Except Panic nrredis.Client :=
  match GetTnxFromContext heap ctx with
  | Except.error p => Except.error p
  | Except.ok txn => Except.ok (nrredis.WrapRedisClient txn c)

/-- Whether a transaction handle was attached under `txnKey` somewhere on the
chain that starts at `c`, walking at most `fuel` nodes. -/
def handleOnChain (heap : Heap) : Nat → Nat → Bool
  | 0, _ => false
  | fuel + 1, c =>
    match heap[c]? with
    | none => false
    | some ContextNode.emptyCtx => false
    | some (ContextNode.valueCtx parent k val) =>
      (k = txnKey && (match val with
        | NewrelicContext.Value.transaction _ => true
        | _ => false)) || handleOnChain heap fuel parent
    | some (ContextNode.cancelCtx parent) => handleOnChain heap fuel parent

end nrcontext

/-! ## Reading a trace -/

/-- Start times handed out by the transaction, in order. -/
def startTimesTaken : List Event → List SegmentStartTime
  | [] => []
  | Event.started t :: es => t :: startTimesTaken es
  | _ :: es => startTimesTaken es

/-- Segments built by a segment factory, in order. -/
def segmentsBuilt : List Event → List DatastoreSegment
  | [] => []
  | Event.built s :: es => s :: segmentsBuilt es
  | _ :: es => segmentsBuilt es

/-- Segments that were ended, in order. -/
def segmentsEnded : List Event → List DatastoreSegment
  | [] => []
  | Event.ended s :: es => s :: segmentsEnded es
  | _ :: es => segmentsEnded es

/-! ## Segments and events named in the statements, and concrete inputs -/

open nrgorm

/-- The segment the after-hook builds. -/
def afterSegment (u : Char → Char) (c : callbacks) (scope : Scope) (operation : String)
    (st : SegmentStartTime) : DatastoreSegment :=
  { StartTime := st, Product := c.product, ParameterizedQuery := scope.SQL,
    Operation := if operation = "" then ToUpper u (splitSpaceFirst scope.SQL) else operation,
    Collection := scope.tableName }

/-- The segment the commit-or-rollback hook builds. -/
def commitSegment (c : callbacks) (scope : Scope) (st : SegmentStartTime) : DatastoreSegment :=
  { StartTime := st, Product := c.product, ParameterizedQuery := "",
    Operation := "COMMIT/ROLLBACK", Collection := scope.tableName }

/-- The events of one complete cycle on a chain with the transaction `t` bound,
started at stamp `n`; `started` says whether the started-transaction flag is set. -/
def cycleEvents (u : Char → Char) (c : callbacks) (ch : Chain) (scope : Scope)
    (t : Transaction) (n : Nat) (started : Bool) : List Event :=
  [Event.started ⟨t, n⟩, Event.built (afterSegment u c scope ch.operation ⟨t, n⟩),
    Event.ended (afterSegment u c scope ch.operation ⟨t, n⟩)]
  ++ (if started then
        Event.started ⟨t, n + 1⟩ ::
          (if ch.hasCommitOrRollback then
            [Event.built (commitSegment c scope ⟨t, n + 1⟩),
              Event.ended (commitSegment c scope ⟨t, n + 1⟩)]
          else [])
      else [])

/-- The start-time marker one complete cycle leaves in the bag. -/
def cycleMarker (t : Transaction) (n : Nat) (started : Bool) : Value :=
  if started then Value.segmentStartTime ⟨t, n + 1⟩ else Value.nil

/-- A create call on the table `users` whose scope carries the flag of an implicit
transaction and no transaction handle. -/
def unboundScope : Scope :=
  { values := fun k =>
      if k = "gorm:started_transaction0xc000010000" then some (Value.bool true) else none,
    instanceID := "0xc000010000",
    SQL := "INSERT INTO users (name) VALUES (?)",
    tableName := "users" }

/-- A create call on the table `users` with the transaction 1 bound and the flag
of an implicit transaction set. -/
def startedScope : Scope :=
  { values := fun k =>
      if k = "newrelicTransaction" then some (Value.transaction ⟨1⟩)
      else if k = "gorm:started_transaction0xc000010000" then some (Value.bool true)
      else none,
    instanceID := "0xc000010000",
    SQL := "INSERT INTO users (name) VALUES (?)",
    tableName := "users" }

/-- A query call on the table `users` with the transaction 1 bound and no
implicit transaction. -/
def plainScope : Scope :=
  { values := fun k => if k = "newrelicTransaction" then some (Value.transaction ⟨1⟩) else none,
    instanceID := "0xc000010000",
    SQL := "SELECT * FROM users WHERE id = ?",
    tableName := "users" }

/-- A raw row-query whose text has a line break after its first word, with the
transaction 1 bound and the start time of stamp 7 recorded. -/
def multilineScope : Scope :=
  { values := fun k =>
      if k = "newrelicTransaction" then some (Value.transaction ⟨1⟩)
      else if k = "newrelicStartTime" then some (Value.segmentStartTime ⟨⟨1⟩, 7⟩)
      else none,
    instanceID := "0xc000010000",
    SQL := "select\n* from users",
    tableName := "" }

/-- A raw row-query `select * from users` with the transaction 1 bound and the
start time of stamp 7 recorded. -/
def rowQueryScope : Scope :=
  { values := fun k =>
      if k = "newrelicTransaction" then some (Value.transaction ⟨1⟩)
      else if k = "newrelicStartTime" then some (Value.segmentStartTime ⟨⟨1⟩, 7⟩)
      else none,
    instanceID := "0xc000010000",
    SQL := "select * from users",
    tableName := "" }

/-- Settings of a db with the transaction 1 bound. -/
def boundValues : String → Option Value :=
  fun k => if k = "newrelicTransaction" then some (Value.transaction ⟨1⟩) else none

/-- A query, then a create with an implicit transaction, then a raw row-query. -/
def chainedCalls : List Call :=
  [⟨Chain.query, "0xc000010000", "SELECT * FROM users", "users", false⟩,
   ⟨Chain.create, "0xc000010040", "INSERT INTO users (name) VALUES (?)", "users", true⟩,
   ⟨Chain.row_query, "0xc000010080", "select count(*) from users", "", false⟩]

/-- A heap with the root context and a context that carries the transaction 1. -/
def carryingHeap : nrcontext.Heap :=
  [nrcontext.ContextNode.emptyCtx,
   nrcontext.ContextNode.valueCtx 0 nrcontext.txnKey (Value.transaction ⟨1⟩)]

/-- A heap with the root context, a context that carries a request id under the key
of another package, and a cancellation context derived from it. -/
def plainHeap : nrcontext.Heap :=
  [nrcontext.ContextNode.emptyCtx,
   nrcontext.ContextNode.valueCtx 0 (nrcontext.Key.foreign "requestID") (Value.other "r-17"),
   nrcontext.ContextNode.cancelCtx 1]

/-- A cache client whose built-in dispatch reports success. -/
def idleClient : nrredis.Client :=
  { ctx := 0, defaultProcess := fun _ w => (none, w), process := none,
    pipelineProcessCmds := fun _ w => (none, w) }

/-- A db of dialect postgres with no settings and no callbacks of its own. -/
def postgresDB : DB :=
  { dialect := "postgres", values := fun _ => none, callbacks := [] }

/-- The segment the wrapped dispatch function of the cache client opens for a
command, in the agent state `w`. -/
def openedSegment (txn : Transaction) (cmd : nrredis.Cmder) (w : World) : DatastoreSegment :=
  { StartTime := ⟨txn, w.stamp⟩, Product := DatastoreRedis, ParameterizedQuery := "",
    Operation := beforeFirstSpace cmd.String, Collection := "" }

/-- The agent state in which the dispatch function handed to the wrapper runs: the
start time was handed out and the segment was built. -/
def afterOpening (txn : Transaction) (cmd : nrredis.Cmder) (w : World) : World :=
  { stamp := w.stamp + 1,
    trace := w.trace ++ [Event.started ⟨txn, w.stamp⟩, Event.built (openedSegment txn cmd w)] }

/-- A cache client whose built-in dispatch and pipeline execution report an error
and leave the agent alone, as those of the library do. -/
def failingClient : nrredis.Client :=
  { ctx := 0,
    defaultProcess := fun _ w => (some ⟨"dial tcp: connection refused"⟩, w),
    process := none,
    pipelineProcessCmds := fun _ w => (some ⟨"dial tcp: connection refused"⟩, w) }

/-- The same client after a stub dispatch was installed on it with `WrapProcess`. -/
def stubbedClient : nrredis.Client :=
  failingClient.WrapProcess fun _ => fun _ w => (some ⟨"stub dispatch: refused"⟩, w)

/-! ## Lemmas on the settings bag -/

theorem Scope.Get_Set_same (scope : Scope) (k : String) (v : Value) :
    (scope.Set k v).Get k = some v := by
  simp [Scope.Get, Scope.Set]

theorem Scope.Get_Set_of_ne (scope : Scope) (k k1 : String) (v : Value) (h : k1 ≠ k) :
    (scope.Set k v).Get k1 = scope.Get k1 := by
  simp [Scope.Get, Scope.Set, h]

theorem flagKey_ne_startTimeKey (id : String) :
    "gorm:started_transaction" ++ id ≠ nrgorm.startTimeKey := by
  intro h
  have := congrArg String.data h
  simp [nrgorm.startTimeKey] at this

theorem flagKey_ne_txnGormKey (id : String) :
    "gorm:started_transaction" ++ id ≠ nrgorm.txnGormKey := by
  intro h
  have := congrArg String.data h
  simp [nrgorm.txnGormKey] at this

theorem txnGormKey_ne_startTimeKey : nrgorm.txnGormKey ≠ nrgorm.startTimeKey := by
  decide

theorem Scope.InstanceGet_Set_startTimeKey (scope : Scope) (v : Value) :
    (scope.Set nrgorm.startTimeKey v).InstanceGet "gorm:started_transaction"
      = scope.InstanceGet "gorm:started_transaction" := by
  unfold Scope.InstanceGet
  exact Scope.Get_Set_of_ne scope _ _ v (flagKey_ne_startTimeKey _)

theorem Scope.Get_txnGormKey_Set_startTimeKey (scope : Scope) (v : Value) :
    (scope.Set nrgorm.startTimeKey v).Get nrgorm.txnGormKey = scope.Get nrgorm.txnGormKey :=
  Scope.Get_Set_of_ne scope _ _ v txnGormKey_ne_startTimeKey

/-! ## Lemmas on strings -/

theorem splitChars_headD (sep : Char) (l : List Char) :
    (splitChars sep l).headD [] = l.takeWhile (fun c => c ≠ sep) := by
  induction l with
  | nil => rfl
  | cons c cs ih =>
    by_cases h : c = sep
    · simp [splitChars, h]
    · simp only [splitChars, h, if_false]
      have hp : decide (c ≠ sep) = true := decide_eq_true h
      cases hs : splitChars sep cs with
      | nil =>
        rw [hs] at ih
        simp only [List.takeWhile, hp, ← ih]
        rfl
      | cons a b =>
        rw [hs] at ih
        simp only [List.takeWhile, hp, ← ih]
        rfl

theorem splitSpaceFirst_eq (s : String) : splitSpaceFirst s = beforeFirstSpace s := by
  unfold splitSpaceFirst beforeFirstSpace
  rw [splitChars_headD]

theorem takeWhile_notWhitespace (l : List Char)
    (h : ∀ c ∈ l.takeWhile (fun c => c ≠ ' '), c.isWhitespace = false) :
    l.takeWhile (fun c => !c.isWhitespace) = l.takeWhile (fun c => c ≠ ' ') := by
  induction l with
  | nil => rfl
  | cons c cs ih =>
    by_cases hc : c = ' '
    · subst hc
      simp only [List.takeWhile]
      rfl
    · have hp : decide (c ≠ ' ') = true := decide_eq_true hc
      have htw : List.takeWhile (fun c => decide (c ≠ ' ')) (c :: cs)
          = c :: List.takeWhile (fun c => decide (c ≠ ' ')) cs := by
        simp only [List.takeWhile, hp]
      rw [htw] at h
      have hws : c.isWhitespace = false := h c (List.mem_cons_self _ _)
      have ih2 := ih (fun d hd => h d (List.mem_cons_of_mem _ hd))
      rw [htw]
      simp only [List.takeWhile, hws, Bool.not_false, ih2]

theorem beforeFirstSpace_eq_token (s : String)
    (hhead : s.data.head? ≠ some ' ')
    (h : ∀ c ∈ s.data.takeWhile (fun c => c ≠ ' '), c.isWhitespace = false) :
    beforeFirstSpace s = firstWhitespaceToken s := by
  unfold beforeFirstSpace firstWhitespaceToken
  have hdrop : s.data.dropWhile Char.isWhitespace = s.data := by
    cases hd : s.data with
    | nil => rfl
    | cons c cs =>
      rw [hd] at hhead h
      have hc : c ≠ ' ' := by
        intro hc
        apply hhead
        simp [hc]
      have hp : decide (c ≠ ' ') = true := decide_eq_true hc
      have hws : c.isWhitespace = false := by
        apply h
        simp only [List.takeWhile, hp]
        exact List.mem_cons_self _ _
      simp only [List.dropWhile, hws]
  rw [hdrop, takeWhile_notWhitespace _ h]

/-! ## What each hook does in each state of the bag -/

theorem before_unbound (c : callbacks) (scope : Scope) (w : World)
    (htxn : scope.Get txnGormKey = none) : c.before scope w = Except.ok (scope, w) := by
  simp [callbacks.before, htxn]

theorem before_bound (c : callbacks) (scope : Scope) (w : World) (t : Transaction)
    (htxn : scope.Get txnGormKey = some (Value.transaction t)) :
    c.before scope w = Except.ok
      (scope.Set startTimeKey (Value.segmentStartTime ⟨t, w.stamp⟩),
        ⟨w.stamp + 1, w.trace ++ [Event.started ⟨t, w.stamp⟩]⟩) := by
  simp [callbacks.before, htxn, Value.assertTransaction, Transaction.StartSegmentNow]

theorem after_unarmed (u : Char → Char) (c : callbacks) (scope : Scope) (op : String)
    (w : World) (hstart : scope.Get startTimeKey = none) :
    c.after u scope op w = Except.ok (scope, w) := by
  simp [callbacks.after, hstart]

theorem after_armed_plain (u : Char → Char) (c : callbacks) (scope : Scope) (op : String)
    (w : World) (st : SegmentStartTime)
    (hstart : scope.Get startTimeKey = some (Value.segmentStartTime st))
    (hflag : scope.InstanceGet "gorm:started_transaction" = none) :
    c.after u scope op w = Except.ok
      (scope.Set startTimeKey Value.nil,
        ⟨w.stamp, w.trace ++ [Event.built (afterSegment u c scope op st),
          Event.ended (afterSegment u c scope op st)]⟩) := by
  simp [callbacks.after, hstart, hflag, Value.assertSegmentStartTime, segmentBuilder,
    DatastoreSegment.End, World.emit, afterSegment, Scope.TableName]

theorem after_armed_started (u : Char → Char) (c : callbacks) (scope : Scope) (op : String)
    (w : World) (st : SegmentStartTime) (t : Transaction) (flag : Value)
    (htxn : scope.Get txnGormKey = some (Value.transaction t))
    (hstart : scope.Get startTimeKey = some (Value.segmentStartTime st))
    (hflag : scope.InstanceGet "gorm:started_transaction" = some flag) :
    c.after u scope op w = Except.ok
      (scope.Set startTimeKey (Value.segmentStartTime ⟨t, w.stamp⟩),
        ⟨w.stamp + 1, w.trace ++ [Event.built (afterSegment u c scope op st),
          Event.ended (afterSegment u c scope op st), Event.started ⟨t, w.stamp⟩]⟩) := by
  simp [callbacks.after, hstart, hflag, htxn, Value.assertSegmentStartTime, segmentBuilder,
    DatastoreSegment.End, World.emit, afterSegment, Scope.TableName, Value.assertTransaction,
    Transaction.StartSegmentNow]

theorem commit_unarmed (c : callbacks) (scope : Scope) (w : World)
    (hstart : scope.Get startTimeKey = none) :
    c.commitOrRollback scope w = Except.ok (scope, w) := by
  simp [callbacks.commitOrRollback, hstart]

theorem commit_cleared (c : callbacks) (scope : Scope) (w : World)
    (hstart : scope.Get startTimeKey = some Value.nil) :
    c.commitOrRollback scope w = Except.ok (scope, w) := by
  simp [callbacks.commitOrRollback, hstart]

theorem commit_armed (c : callbacks) (scope : Scope) (w : World) (st : SegmentStartTime)
    (hstart : scope.Get startTimeKey = some (Value.segmentStartTime st)) :
    c.commitOrRollback scope w = Except.ok
      (scope, ⟨w.stamp, w.trace ++ [Event.built (commitSegment c scope st),
        Event.ended (commitSegment c scope st)]⟩) := by
  simp [callbacks.commitOrRollback, hstart, Value.assertSegmentStartTime, segmentBuilder,
    DatastoreSegment.End, World.emit, commitSegment, Scope.TableName]

theorem afterSegment_Set (u : Char → Char) (c : callbacks) (scope : Scope) (k : String)
    (v : Value) (op : String) (st : SegmentStartTime) :
    afterSegment u c (scope.Set k v) op st = afterSegment u c scope op st := rfl

theorem commitSegment_Set (c : callbacks) (scope : Scope) (k : String) (v : Value)
    (st : SegmentStartTime) :
    commitSegment c (scope.Set k v) st = commitSegment c scope st := rfl

theorem beforeHook_run (u : Char → Char) (c : callbacks) (ch : Chain) (scope : Scope)
    (w : World) : ch.beforeHook.run u c scope w = c.before scope w := by
  cases ch <;> rfl

theorem afterHook_run (u : Char → Char) (c : callbacks) (ch : Chain) (scope : Scope)
    (w : World) : ch.afterHook.run u c scope w = c.after u scope ch.operation w := by
  cases ch <;> rfl

theorem commitHook_run (u : Char → Char) (c : callbacks) (scope : Scope) (w : World) :
    Hook.commitOrRollback.run u c scope w = c.commitOrRollback scope w := rfl

theorem cycle_unbound (u : Char → Char) (c : callbacks) (ch : Chain) (scope : Scope)
    (w : World) (htxn : scope.Get txnGormKey = none)
    (hstart : scope.Get startTimeKey = none) :
    cycle u c ch scope w = Except.ok (scope, w) := by
  unfold cycle Chain.hooks
  cases hcr : ch.hasCommitOrRollback <;>
    simp [runHooks, beforeHook_run, afterHook_run, commitHook_run,
      before_unbound c scope w htxn, after_unarmed u c scope _ w hstart,
      commit_unarmed c scope w hstart]

theorem cycle_bound (u : Char → Char) (c : callbacks) (ch : Chain) (scope : Scope)
    (w : World) (t : Transaction)
    (htxn : scope.Get txnGormKey = some (Value.transaction t)) :
    cycle u c ch scope w = Except.ok
      ((scope.Set startTimeKey (Value.segmentStartTime ⟨t, w.stamp⟩)).Set startTimeKey
          (cycleMarker t w.stamp (scope.InstanceGet "gorm:started_transaction").isSome),
        ⟨w.stamp + (if (scope.InstanceGet "gorm:started_transaction").isSome then 2 else 1),
          w.trace ++ cycleEvents u c ch scope t w.stamp
            (scope.InstanceGet "gorm:started_transaction").isSome⟩) := by
  have hb := before_bound c scope w t htxn
  have h1 : (scope.Set startTimeKey (Value.segmentStartTime ⟨t, w.stamp⟩)).Get startTimeKey
      = some (Value.segmentStartTime ⟨t, w.stamp⟩) := Scope.Get_Set_same _ _ _
  have htxn1 : (scope.Set startTimeKey (Value.segmentStartTime ⟨t, w.stamp⟩)).Get txnGormKey
      = some (Value.transaction t) := by
    rw [Scope.Get_txnGormKey_Set_startTimeKey]; exact htxn
  cases hflag : scope.InstanceGet "gorm:started_transaction" with
  | none =>
    have ha := after_armed_plain u c
      (scope.Set startTimeKey (Value.segmentStartTime ⟨t, w.stamp⟩)) ch.operation
      ⟨w.stamp + 1, w.trace ++ [Event.started ⟨t, w.stamp⟩]⟩ ⟨t, w.stamp⟩ h1
      (by rw [Scope.InstanceGet_Set_startTimeKey]; exact hflag)
    have hc := fun w1 => commit_cleared c
      ((scope.Set startTimeKey (Value.segmentStartTime ⟨t, w.stamp⟩)).Set startTimeKey
        Value.nil) w1 (Scope.Get_Set_same _ _ _)
    unfold cycle Chain.hooks
    cases hcr : ch.hasCommitOrRollback <;>
      simp [runHooks, beforeHook_run, afterHook_run, commitHook_run, hb, ha, hc,
        cycleEvents, cycleMarker, hcr, afterSegment_Set]
  | some flag =>
    have ha := after_armed_started u c
      (scope.Set startTimeKey (Value.segmentStartTime ⟨t, w.stamp⟩)) ch.operation
      ⟨w.stamp + 1, w.trace ++ [Event.started ⟨t, w.stamp⟩]⟩ ⟨t, w.stamp⟩ t flag htxn1 h1
      (by rw [Scope.InstanceGet_Set_startTimeKey]; exact hflag)
    have hc := fun w1 => commit_armed c
      ((scope.Set startTimeKey (Value.segmentStartTime ⟨t, w.stamp⟩)).Set startTimeKey
        (Value.segmentStartTime ⟨t, w.stamp + 1⟩)) w1
      ⟨t, w.stamp + 1⟩ (Scope.Get_Set_same _ _ _)
    unfold cycle Chain.hooks
    cases hcr : ch.hasCommitOrRollback <;>
      simp [runHooks, beforeHook_run, afterHook_run, commitHook_run, hb, ha, hc,
        cycleEvents, cycleMarker, hcr, afterSegment_Set, commitSegment_Set]

/-! ## Chains of calls -/

theorem flagKey_injective (a b : String)
    (h : "gorm:started_transaction" ++ a = "gorm:started_transaction" ++ b) : a = b := by
  have h2 := congrArg String.data h
  simp only [String.data_append] at h2
  exact String.ext (List.append_cancel_left h2)

theorem Call.scope_values (call : Call) (values : String → Option Value) (k : String) :
    (call.scope values).values k
      = if call.startedTransaction = true
          ∧ k = "gorm:started_transaction" ++ call.instanceID
        then some (Value.bool true) else values k := by
  unfold Call.scope
  cases call.startedTransaction <;> simp [Scope.InstanceSet, Scope.Set]

theorem Call.scope_txn (call : Call) (values : String → Option Value) :
    (call.scope values).Get txnGormKey = values txnGormKey := by
  unfold Scope.Get
  rw [Call.scope_values]
  have hne : ¬ txnGormKey = "gorm:started_transaction" ++ call.instanceID :=
    fun h => flagKey_ne_txnGormKey call.instanceID (Eq.symm h)
  rw [if_neg (fun h => hne h.2)]

theorem Call.scope_startTime (call : Call) (values : String → Option Value) :
    (call.scope values).Get startTimeKey = values startTimeKey := by
  unfold Scope.Get
  rw [Call.scope_values]
  have hne : ¬ startTimeKey = "gorm:started_transaction" ++ call.instanceID :=
    fun h => flagKey_ne_startTimeKey call.instanceID (Eq.symm h)
  rw [if_neg (fun h => hne h.2)]

theorem Call.scope_instanceID (call : Call) (values : String → Option Value) :
    (call.scope values).instanceID = call.instanceID := by
  unfold Call.scope
  cases call.startedTransaction <;> rfl

theorem Call.scope_flag (call : Call) (values : String → Option Value) :
    (call.scope values).InstanceGet "gorm:started_transaction"
      = if call.startedTransaction = true then some (Value.bool true)
        else values ("gorm:started_transaction" ++ call.instanceID) := by
  unfold Scope.InstanceGet Scope.Get
  rw [Call.scope_values, Call.scope_instanceID]
  simp

theorem cycleEvents_scope (u : Char → Char) (c : callbacks) (call : Call)
    (v v0 : String → Option Value) (ch : Chain) (t : Transaction) (n : Nat) (b : Bool) :
    cycleEvents u c ch (call.scope v) t n b = cycleEvents u c ch (call.scope v0) t n b := by
  unfold Call.scope
  cases call.startedTransaction <;> rfl

theorem cycleEvents_selfContained (u : Char → Char) (c : callbacks) (ch : Chain)
    (scope : Scope) (t : Transaction) (n : Nat) (b : Bool) :
    ∀ seg ∈ segmentsBuilt (cycleEvents u c ch scope t n b),
      seg.StartTime ∈ startTimesTaken (cycleEvents u c ch scope t n b) := by
  cases b <;> cases hcr : ch.hasCommitOrRollback <;>
    simp [cycleEvents, segmentsBuilt, startTimesTaken, afterSegment, commitSegment, hcr]

theorem Scope.values_Set_Set_of_ne (scope : Scope) (k : String) (a b : Value) (k1 : String)
    (h : k1 ≠ k) : ((scope.Set k a).Set k b).values k1 = scope.values k1 := by
  simp [Scope.Set, h]

theorem runCalls_as_fresh (u : Char → Char) (c : callbacks) (values0 : String → Option Value) :
    ∀ (calls : List Call) (values : String → Option Value) (w : World),
      values txnGormKey = values0 txnGormKey →
      ((∃ t, values0 txnGormKey = some (Value.transaction t))
        ∨ (values0 txnGormKey = none ∧ values startTimeKey = none
            ∧ values0 startTimeKey = none)) →
      (∀ call ∈ calls, values ("gorm:started_transaction" ++ call.instanceID)
        = values0 ("gorm:started_transaction" ++ call.instanceID)) →
      (calls.map Call.instanceID).Nodup →
      ∃ traces values1 w1,
        runCalls u c values w calls = Except.ok (traces, values1, w1)
        ∧ runCallsFresh u c values0 w calls = Except.ok (traces, w1)
        ∧ traces.length = calls.length
        ∧ ∀ evs ∈ traces, ∀ seg ∈ segmentsBuilt evs,
            seg.StartTime ∈ startTimesTaken evs := by
  intro calls
  induction calls with
  | nil =>
    intro values w _ _ _ _
    exact ⟨[], values, w, rfl, rfl, rfl, by simp⟩
  | cons call rest ih =>
    intro values w htxn hbag hflags hnodup
    have hnd : call.instanceID ∉ rest.map Call.instanceID ∧ (rest.map Call.instanceID).Nodup := by
      simpa using hnodup
    have hflagEq : (call.scope values).InstanceGet "gorm:started_transaction"
        = (call.scope values0).InstanceGet "gorm:started_transaction" := by
      rw [Call.scope_flag, Call.scope_flag, hflags call (List.mem_cons_self _ _)]
    have hrestKey : ∀ call1 ∈ rest, (call.scope values).values
        ("gorm:started_transaction" ++ call1.instanceID)
        = values0 ("gorm:started_transaction" ++ call1.instanceID) := by
      intro call1 hmem
      rw [Call.scope_values]
      have hne : call1.instanceID ≠ call.instanceID := by
        intro h
        exact hnd.1 (h ▸ List.mem_map_of_mem Call.instanceID hmem)
      rw [if_neg (fun h => hne (flagKey_injective _ _ h.2))]
      exact hflags call1 (List.mem_cons_of_mem _ hmem)
    rcases hbag with ⟨t, ht⟩ | ⟨hnone, hs, hs0⟩
    · have hA : (call.scope values).Get txnGormKey = some (Value.transaction t) := by
        rw [Call.scope_txn, htxn, ht]
      have hB : (call.scope values0).Get txnGormKey = some (Value.transaction t) := by
        rw [Call.scope_txn, ht]
      have cA := cycle_bound u c call.chain (call.scope values) w t hA
      have cB := cycle_bound u c call.chain (call.scope values0) w t hB
      rw [hflagEq, cycleEvents_scope u c call values values0] at cA
      have hboth : ∃ m n evs,
          cycle u c call.chain (call.scope values) w = Except.ok
            (((call.scope values).Set startTimeKey
              (Value.segmentStartTime ⟨t, w.stamp⟩)).Set startTimeKey m, ⟨n, w.trace ++ evs⟩)
          ∧ cycle u c call.chain (call.scope values0) w = Except.ok
            (((call.scope values0).Set startTimeKey
              (Value.segmentStartTime ⟨t, w.stamp⟩)).Set startTimeKey m, ⟨n, w.trace ++ evs⟩)
          ∧ ∀ seg ∈ segmentsBuilt evs, seg.StartTime ∈ startTimesTaken evs :=
        ⟨_, _, _, cA, cB, cycleEvents_selfContained u c _ _ t _ _⟩
      obtain ⟨m, n, evs, cA1, cB1, hsc⟩ := hboth
      obtain ⟨traces, values1, w1, h1, h2, h3, h4⟩ := ih
        (((call.scope values).Set startTimeKey
          (Value.segmentStartTime ⟨t, w.stamp⟩)).Set startTimeKey m).values
        ⟨n, w.trace ++ evs⟩
        (by
          rw [Scope.values_Set_Set_of_ne _ _ _ _ _ txnGormKey_ne_startTimeKey]
          exact (Call.scope_txn call values).trans htxn)
        (Or.inl ⟨t, ht⟩)
        (by
          intro call1 hmem
          rw [Scope.values_Set_Set_of_ne _ _ _ _ _ (flagKey_ne_startTimeKey _)]
          exact hrestKey call1 hmem)
        hnd.2
      refine ⟨evs :: traces, values1, w1, ?_, ?_, by simp [h3], ?_⟩
      · simp only [runCalls, cA1]
        rw [h1]
        simp
      · simp only [runCallsFresh, cB1]
        rw [h2]
        simp
      · intro evs1 hevs
        rcases List.mem_cons.mp hevs with h | h
        · subst h
          exact hsc
        · exact h4 evs1 h
    · have hA : (call.scope values).Get txnGormKey = none := by
        rw [Call.scope_txn, htxn, hnone]
      have hB : (call.scope values0).Get txnGormKey = none := by
        rw [Call.scope_txn, hnone]
      have hAs : (call.scope values).Get startTimeKey = none := by
        rw [Call.scope_startTime, hs]
      have hBs : (call.scope values0).Get startTimeKey = none := by
        rw [Call.scope_startTime, hs0]
      have cA := cycle_unbound u c call.chain (call.scope values) w hA hAs
      have cB := cycle_unbound u c call.chain (call.scope values0) w hB hBs
      obtain ⟨traces, values1, w1, h1, h2, h3, h4⟩ := ih (call.scope values).values w
        ((Call.scope_txn call values).trans htxn)
        (Or.inr ⟨hnone, hAs, hs0⟩) hrestKey hnd.2
      refine ⟨[] :: traces, values1, w1, ?_, ?_, by simp [h3], ?_⟩
      · simp only [runCalls, cA]
        rw [h1]
        simp
      · simp only [runCallsFresh, cB]
        rw [h2]
        simp
      · intro evs hevs
        rcases List.mem_cons.mp hevs with h | h
        · subst h
          simp [segmentsBuilt]
        · exact h4 evs h

/-- Calls made without a transaction never record a start time: along any chain
of calls that starts from settings with neither transaction nor marker, every
cycle leaves the settings without transaction and without marker, and the agent
untouched. -/
theorem runCalls_unbound (u : Char → Char) (c : callbacks) :
    ∀ (calls : List Call) (values : String → Option Value) (w : World),
      values txnGormKey = none → values startTimeKey = none →
      ∃ traces values1,
        runCalls u c values w calls = Except.ok (traces, values1, w)
        ∧ values1 txnGormKey = none ∧ values1 startTimeKey = none
        ∧ ∀ evs ∈ traces, evs = [] := by
  intro calls
  induction calls with
  | nil =>
    intro values w htxn hstart
    exact ⟨[], values, rfl, htxn, hstart, by simp⟩
  | cons call rest ih =>
    intro values w htxn hstart
    have hA : (call.scope values).Get txnGormKey = none := by
      rw [Call.scope_txn, htxn]
    have hAs : (call.scope values).Get startTimeKey = none := by
      rw [Call.scope_startTime, hstart]
    have cA := cycle_unbound u c call.chain (call.scope values) w hA hAs
    obtain ⟨traces, values1, h1, h2, h3, h4⟩ := ih (call.scope values).values w hA hAs
    refine ⟨[] :: traces, values1, ?_, h2, h3, ?_⟩
    · simp only [runCalls, cA]
      rw [h1]
      simp
    · intro evs hevs
      rcases List.mem_cons.mp hevs with h | h
      · exact h
      · exact h4 evs h

/-! ## Claims on the ORM hooks -/

/-- C1: on a settings bag with no transaction bound (and hence no start time
recorded: only the before-hook records one, and only with a transaction bound),
for every chain and whatever the started-transaction flag, the before-hook, the
after-hook (with any operation label) and the commit-or-rollback hook each return
normally with the scope and the agent state untouched, so no segment is built and
the bag is unchanged; the same holds for the three hooks run in a row. -/
theorem C1_no_transaction_no_segment (u : Char → Char) (c : callbacks) (scope : Scope)
    (w : World) (ch : Chain)
    (htxn : scope.Get txnGormKey = none) (hstart : scope.Get startTimeKey = none) :
    ch.beforeHook.run u c scope w = Except.ok (scope, w)
    ∧ ch.afterHook.run u c scope w = Except.ok (scope, w)
    ∧ Hook.commitOrRollback.run u c scope w = Except.ok (scope, w)
    ∧ runHooks u c [ch.beforeHook, ch.afterHook, Hook.commitOrRollback] scope w
        = Except.ok (scope, w)
    ∧ cycle u c ch scope w = Except.ok (scope, w) := by
  have hb : ch.beforeHook.run u c scope w = Except.ok (scope, w) := by
    cases ch <;>
      simp [Chain.beforeHook, Hook.run, callbacks.beforeCreate, callbacks.beforeQuery,
        callbacks.beforeUpdate, callbacks.beforeDelete, callbacks.beforeRowQuery,
        callbacks.before, htxn]
  have ha : ch.afterHook.run u c scope w = Except.ok (scope, w) := by
    cases ch <;>
      simp [Chain.afterHook, Hook.run, callbacks.afterCreate, callbacks.afterQuery,
        callbacks.afterUpdate, callbacks.afterDelete, callbacks.afterRowQuery,
        callbacks.after, hstart]
  have hc : Hook.commitOrRollback.run u c scope w = Except.ok (scope, w) := by
    simp [Hook.run, callbacks.commitOrRollback, hstart]
  refine ⟨hb, ha, hc, ?_, ?_⟩
  · simp [runHooks, hb, ha, hc]
  · unfold cycle Chain.hooks
    cases hcr : ch.hasCommitOrRollback <;> simp [runHooks, hb, ha, hc]

/-- Witness of C1: a create call with the flag set and no transaction bound. -/
theorem C1_no_transaction_no_segment_witness :
    (unboundScope.Get txnGormKey = none ∧ unboundScope.Get startTimeKey = none)
    ∧ cycle id ⟨DatastorePostgres⟩ Chain.create unboundScope ⟨7, []⟩
        = Except.ok (unboundScope, ⟨7, []⟩) :=
  ⟨⟨by decide, by decide⟩,
    (C1_no_transaction_no_segment id ⟨DatastorePostgres⟩ unboundScope ⟨7, []⟩ Chain.create
      (by decide) (by decide)).2.2.2.2⟩

/-- C2: a create, update or delete call with a transaction bound and the
started-transaction flag set emits exactly two segments, in this order: first the
one labelled INSERT (UPDATE, DELETE) with the start time the before-hook
recorded, the query text and the table name, then the one labelled
COMMIT/ROLLBACK with the start time the after-hook re-armed, an empty query
text and the table name; both are built once and ended once. -/
theorem C2_implicit_transaction_two_segments (u : Char → Char) (c : callbacks)
    (scope : Scope) (w : World) (t : Transaction) (flag : Value) (ch : Chain)
    (label : String)
    (hch : (ch, label) ∈ [(Chain.create, "INSERT"), (Chain.update, "UPDATE"),
      (Chain.delete, "DELETE")])
    (htxn : scope.Get txnGormKey = some (Value.transaction t))
    (hflag : scope.InstanceGet "gorm:started_transaction" = some flag) :
    ∃ s1 w1 s2 w2 s3 w3 evs,
      ch.beforeHook.run u c scope w = Except.ok (s1, w1)
      ∧ s1.Get startTimeKey = some (Value.segmentStartTime ⟨t, w.stamp⟩)
      ∧ ch.afterHook.run u c s1 w1 = Except.ok (s2, w2)
      ∧ s2.Get startTimeKey = some (Value.segmentStartTime ⟨t, w.stamp + 1⟩)
      ∧ Hook.commitOrRollback.run u c s2 w2 = Except.ok (s3, w3)
      ∧ cycle u c ch scope w = Except.ok (s3, w3)
      ∧ w3.trace = w.trace ++ evs
      ∧ segmentsBuilt evs =
          [⟨⟨t, w.stamp⟩, c.product, scope.SQL, label, scope.tableName⟩,
           ⟨⟨t, w.stamp + 1⟩, c.product, "", "COMMIT/ROLLBACK", scope.tableName⟩]
      ∧ segmentsEnded evs = segmentsBuilt evs
      ∧ startTimesTaken evs = [⟨t, w.stamp⟩, ⟨t, w.stamp + 1⟩] := by
  have hb := before_bound c scope w t htxn
  have h1 : (scope.Set startTimeKey (Value.segmentStartTime ⟨t, w.stamp⟩)).Get startTimeKey
      = some (Value.segmentStartTime ⟨t, w.stamp⟩) := Scope.Get_Set_same _ _ _
  have ha := fun op => after_armed_started u c
    (scope.Set startTimeKey (Value.segmentStartTime ⟨t, w.stamp⟩)) op
    ⟨w.stamp + 1, w.trace ++ [Event.started ⟨t, w.stamp⟩]⟩ ⟨t, w.stamp⟩ t flag
    (by rw [Scope.Get_txnGormKey_Set_startTimeKey]; exact htxn) h1
    (by rw [Scope.InstanceGet_Set_startTimeKey]; exact hflag)
  have hc := fun op => commit_armed c
    ((scope.Set startTimeKey (Value.segmentStartTime ⟨t, w.stamp⟩)).Set startTimeKey
      (Value.segmentStartTime ⟨t, w.stamp + 1⟩))
    ⟨w.stamp + 1 + 1, w.trace ++ [Event.started ⟨t, w.stamp⟩] ++
      [Event.built (afterSegment u c
          (scope.Set startTimeKey (Value.segmentStartTime ⟨t, w.stamp⟩)) op ⟨t, w.stamp⟩),
        Event.ended (afterSegment u c
          (scope.Set startTimeKey (Value.segmentStartTime ⟨t, w.stamp⟩)) op ⟨t, w.stamp⟩),
        Event.started ⟨t, w.stamp + 1⟩]⟩
    ⟨t, w.stamp + 1⟩ (Scope.Get_Set_same _ _ _)
  refine ⟨_, _, _, _, _, _, ?_, (beforeHook_run u c ch scope w).trans hb, h1,
    (afterHook_run u c ch _ _).trans (ha ch.operation), Scope.Get_Set_same _ _ _,
    (commitHook_run u c _ _).trans (hc ch.operation), ?_, ?_⟩
  · exact [Event.started ⟨t, w.stamp⟩,
      Event.built ⟨⟨t, w.stamp⟩, c.product, scope.SQL, label, scope.tableName⟩,
      Event.ended ⟨⟨t, w.stamp⟩, c.product, scope.SQL, label, scope.tableName⟩,
      Event.started ⟨t, w.stamp + 1⟩,
      Event.built ⟨⟨t, w.stamp + 1⟩, c.product, "", "COMMIT/ROLLBACK", scope.tableName⟩,
      Event.ended ⟨⟨t, w.stamp + 1⟩, c.product, "", "COMMIT/ROLLBACK", scope.tableName⟩]
  · have hcr : ch.hasCommitOrRollback = true := by
      simp at hch
      rcases hch with ⟨h, _⟩ | ⟨h, _⟩ | ⟨h, _⟩ <;> subst h <;> rfl
    simp only [cycle, Chain.hooks, hcr, runHooks, if_true, List.cons_append, List.nil_append]
    rw [(beforeHook_run u c ch scope w).trans hb]
    simp only []
    rw [(afterHook_run u c ch _ _).trans (ha ch.operation)]
    simp only []
    rw [(commitHook_run u c _ _).trans (hc ch.operation)]
  · have hop : ch.operation = label ∧ label ≠ "" := by
      simp at hch
      rcases hch with ⟨h, h2⟩ | ⟨h, h2⟩ | ⟨h, h2⟩ <;> subst h <;> subst h2 <;>
        exact ⟨rfl, by decide⟩
    simp [afterSegment, commitSegment, hop.1, hop.2, segmentsBuilt, segmentsEnded,
      startTimesTaken, Scope.Set]

/-- Witness of C2: a create call at stamp 7. -/
theorem C2_implicit_transaction_two_segments_witness :
    ((Chain.create, "INSERT") ∈ [(Chain.create, "INSERT"), (Chain.update, "UPDATE"),
      (Chain.delete, "DELETE")]
      ∧ startedScope.Get txnGormKey = some (Value.transaction ⟨1⟩)
      ∧ startedScope.InstanceGet "gorm:started_transaction" = some (Value.bool true))
    ∧ ∃ s3 w3 evs, cycle id ⟨DatastorePostgres⟩ Chain.create startedScope ⟨7, []⟩
          = Except.ok (s3, w3)
        ∧ w3.trace = [] ++ evs
        ∧ segmentsBuilt evs =
          [⟨⟨⟨1⟩, 7⟩, DatastorePostgres, "INSERT INTO users (name) VALUES (?)", "INSERT",
              "users"⟩,
           ⟨⟨⟨1⟩, 8⟩, DatastorePostgres, "", "COMMIT/ROLLBACK", "users"⟩] :=
  ⟨⟨by decide, by decide, by decide⟩,
    match C2_implicit_transaction_two_segments id ⟨DatastorePostgres⟩ startedScope ⟨7, []⟩
      ⟨1⟩ (Value.bool true) Chain.create "INSERT" (by decide) (by decide) (by decide) with
    | ⟨_, _, _, _, s3, w3, evs, _, _, _, _, _, hcy, htr, hb, _, _⟩ =>
      ⟨s3, w3, evs, hcy, htr, hb⟩⟩

/-- C3: with a transaction bound and the started-transaction flag absent, on any
chain the before-hook followed by the after-hook emits exactly one segment,
built from the start time the before-hook recorded, the category of the
callbacks, the query text, the label of the chain (SELECT on the query chain)
and the table name; the after-hook leaves the start-time marker set to nil, and
a commit-or-rollback hook run next on the same bag returns without a segment. -/
theorem C3_plain_call_one_segment (u : Char → Char) (c : callbacks) (scope : Scope)
    (w : World) (t : Transaction) (ch : Chain)
    (htxn : scope.Get txnGormKey = some (Value.transaction t))
    (hflag : scope.InstanceGet "gorm:started_transaction" = none) :
    ∃ s1 w1 s2 w2 evs label,
      ch.beforeHook.run u c scope w = Except.ok (s1, w1)
      ∧ s1.Get startTimeKey = some (Value.segmentStartTime ⟨t, w.stamp⟩)
      ∧ ch.afterHook.run u c s1 w1 = Except.ok (s2, w2)
      ∧ runHooks u c [ch.beforeHook, ch.afterHook] scope w = Except.ok (s2, w2)
      ∧ w2.trace = w.trace ++ evs
      ∧ label = (if ch.operation = "" then ToUpper u (splitSpaceFirst scope.SQL)
          else ch.operation)
      ∧ (ch = Chain.query → label = "SELECT")
      ∧ segmentsBuilt evs = [⟨⟨t, w.stamp⟩, c.product, scope.SQL, label, scope.tableName⟩]
      ∧ segmentsEnded evs = segmentsBuilt evs
      ∧ startTimesTaken evs = [⟨t, w.stamp⟩]
      ∧ s2.Get startTimeKey = some Value.nil
      ∧ Hook.commitOrRollback.run u c s2 w2 = Except.ok (s2, w2) := by
  have hb := before_bound c scope w t htxn
  have h1 : (scope.Set startTimeKey (Value.segmentStartTime ⟨t, w.stamp⟩)).Get startTimeKey
      = some (Value.segmentStartTime ⟨t, w.stamp⟩) := Scope.Get_Set_same _ _ _
  have ha := after_armed_plain u c
    (scope.Set startTimeKey (Value.segmentStartTime ⟨t, w.stamp⟩)) ch.operation
    ⟨w.stamp + 1, w.trace ++ [Event.started ⟨t, w.stamp⟩]⟩ ⟨t, w.stamp⟩ h1
    (by rw [Scope.InstanceGet_Set_startTimeKey]; exact hflag)
  refine ⟨_, _, _, _, ?_, _, (beforeHook_run u c ch scope w).trans hb, h1,
    (afterHook_run u c ch _ _).trans ha, ?_, ?_, rfl, ?_, ?_, ?_, ?_,
    Scope.Get_Set_same _ _ _, ?_⟩
  · exact [Event.started ⟨t, w.stamp⟩,
      Event.built (afterSegment u c scope ch.operation ⟨t, w.stamp⟩),
      Event.ended (afterSegment u c scope ch.operation ⟨t, w.stamp⟩)]
  · simp only [runHooks]
    rw [(beforeHook_run u c ch scope w).trans hb]
    simp only []
    rw [(afterHook_run u c ch _ _).trans ha]
  · simp [afterSegment, Scope.Set]
  · intro h
    subst h
    simp [Chain.operation]
  · simp [afterSegment, segmentsBuilt]
  · simp [segmentsBuilt, segmentsEnded]
  · simp [startTimesTaken]
  · rw [commitHook_run]
    exact commit_cleared c _ _ (Scope.Get_Set_same _ _ _)

/-- Witness of C3: a query call at stamp 7. -/
theorem C3_plain_call_one_segment_witness :
    (plainScope.Get txnGormKey = some (Value.transaction ⟨1⟩)
      ∧ plainScope.InstanceGet "gorm:started_transaction" = none)
    ∧ ∃ s2 w2 evs, runHooks id ⟨DatastoreMySQL⟩ [Hook.beforeQuery, Hook.afterQuery]
          plainScope ⟨7, []⟩ = Except.ok (s2, w2)
        ∧ w2.trace = [] ++ evs
        ∧ segmentsBuilt evs =
          [⟨⟨⟨1⟩, 7⟩, DatastoreMySQL, "SELECT * FROM users WHERE id = ?", "SELECT", "users"⟩]
        ∧ Hook.commitOrRollback.run id ⟨DatastoreMySQL⟩ s2 w2 = Except.ok (s2, w2) :=
  ⟨⟨by decide, by decide⟩,
    match C3_plain_call_one_segment id ⟨DatastoreMySQL⟩ plainScope ⟨7, []⟩ ⟨1⟩ Chain.query
      (by decide) (by decide) with
    | ⟨_, _, s2, w2, evs, _, _, _, _, hrun, htr, _, hq, hb, _, _, _, hc⟩ =>
      ⟨s2, w2, evs, hrun, htr, by rw [hb, hq rfl]; rfl, hc⟩⟩

/-- C7, as stated, fails: for the query text `select`, line break, `* from users`
the after-hook of a raw row-query labels the segment with `SELECT`, line break,
`*`, while the first whitespace-delimited token, upper-cased, is `SELECT`. -/
theorem C7_row_query_label_counterexample :
    ∃ s2 w2, Hook.afterRowQuery.run id ⟨DatastorePostgres⟩ multilineScope ⟨8, []⟩
        = Except.ok (s2, w2)
      ∧ (segmentsBuilt w2.trace).map (fun seg => seg.Operation) = ["SELECT\n*"]
      ∧ ToUpper id (firstWhitespaceToken multilineScope.SQL) = "SELECT"
      ∧ (segmentsBuilt w2.trace).map (fun seg => seg.Operation)
          ≠ [ToUpper id (firstWhitespaceToken multilineScope.SQL)] := by
  have h := after_armed_plain id ⟨DatastorePostgres⟩ multilineScope "" ⟨8, []⟩ ⟨⟨1⟩, 7⟩
    (by decide) (by decide)
  refine ⟨_, _, h, ?_, ?_, ?_⟩
  · decide
  · decide
  · decide

/-- C7, amended: with a start time recorded (and the transaction bound), the
after-hook of a raw row-query builds exactly one segment, whose operation label
is the part of the query text before its first space character, upper-cased;
that part is the first whitespace-delimited token whenever the text does not
start with a space and has no other whitespace character before its first space;
for the text `select * from users` the label is `SELECT`. -/
theorem C7_row_query_label (u : Char → Char) (c : callbacks) (scope : Scope) (w : World)
    (st : SegmentStartTime) (t : Transaction)
    (htxn : scope.Get txnGormKey = some (Value.transaction t))
    (hstart : scope.Get startTimeKey = some (Value.segmentStartTime st)) :
    ∃ s2 w2 evs,
      Hook.afterRowQuery.run u c scope w = Except.ok (s2, w2)
      ∧ w2.trace = w.trace ++ evs
      ∧ (segmentsBuilt evs).map (fun seg => seg.Operation)
          = [ToUpper u (beforeFirstSpace scope.SQL)]
      ∧ (scope.SQL.data.head? ≠ some ' '
          → (∀ ch ∈ scope.SQL.data.takeWhile (fun ch => ch ≠ ' '), ch.isWhitespace = false)
          → (segmentsBuilt evs).map (fun seg => seg.Operation)
              = [ToUpper u (firstWhitespaceToken scope.SQL)])
      ∧ (scope.SQL = "select * from users"
          → (segmentsBuilt evs).map (fun seg => seg.Operation) = ["SELECT"]) := by
  have hrun : Hook.afterRowQuery.run u c scope w = c.after u scope "" w := rfl
  have hop : (afterSegment u c scope "" st).Operation
      = ToUpper u (beforeFirstSpace scope.SQL) := by
    simp [afterSegment, splitSpaceFirst_eq]
  cases hflag : scope.InstanceGet "gorm:started_transaction" with
  | none =>
    have h := after_armed_plain u c scope "" w st hstart hflag
    refine ⟨_, _, [Event.built (afterSegment u c scope "" st),
      Event.ended (afterSegment u c scope "" st)], hrun.trans h, rfl, ?_, ?_, ?_⟩
    · simp [segmentsBuilt, hop]
    · intro hh hw
      simp [segmentsBuilt, hop, beforeFirstSpace_eq_token scope.SQL hh hw]
    · intro hsql
      simp only [segmentsBuilt, List.map, hop, hsql]
      rfl
  | some flag =>
    have h := after_armed_started u c scope "" w st t flag htxn hstart hflag
    refine ⟨_, _, [Event.built (afterSegment u c scope "" st),
      Event.ended (afterSegment u c scope "" st), Event.started ⟨t, w.stamp⟩],
      hrun.trans h, rfl, ?_, ?_, ?_⟩
    · simp [segmentsBuilt, hop]
    · intro hh hw
      simp [segmentsBuilt, hop, beforeFirstSpace_eq_token scope.SQL hh hw]
    · intro hsql
      simp only [segmentsBuilt, List.map, hop, hsql]
      rfl

/-- Witness of C7: the raw row-query `select * from users`. -/
theorem C7_row_query_label_witness :
    (rowQueryScope.Get txnGormKey = some (Value.transaction ⟨1⟩)
      ∧ rowQueryScope.Get startTimeKey = some (Value.segmentStartTime ⟨⟨1⟩, 7⟩))
    ∧ ∃ s2 w2 evs, Hook.afterRowQuery.run id ⟨DatastorePostgres⟩ rowQueryScope ⟨8, []⟩
          = Except.ok (s2, w2)
        ∧ w2.trace = [] ++ evs
        ∧ (segmentsBuilt evs).map (fun seg => seg.Operation) = ["SELECT"] :=
  ⟨⟨by decide, by decide⟩,
    match C7_row_query_label id ⟨DatastorePostgres⟩ rowQueryScope ⟨8, []⟩ ⟨⟨1⟩, 7⟩ ⟨1⟩
      (by decide) (by decide) with
    | ⟨s2, w2, evs, hrun, htr, _, _, hsel⟩ => ⟨s2, w2, evs, hrun, htr, hsel rfl⟩⟩

/-- C9: on a bag with a transaction bound (or a bag without transaction and
without marker), one complete cycle of a create, update or delete call, for
either value of the started-transaction flag, and one complete cycle of a query
or row-query call (whose scope never carries the flag: the ORM starts implicit
transactions on the create, update and delete chains only) returns normally, and
in the events it adds every start time handed out by the transaction is the
start time of exactly one ended segment, no ended segment has another start
time, no start time is handed out twice, and the segments built are the
segments ended. -/
theorem C9_started_segments_closed_once (u : Char → Char) (c : callbacks) (scope : Scope)
    (w : World) (ch : Chain)
    (hbag : (∃ t, scope.Get txnGormKey = some (Value.transaction t))
      ∨ (scope.Get txnGormKey = none ∧ scope.Get startTimeKey = none))
    (hquery : ch.hasCommitOrRollback = false
      → scope.InstanceGet "gorm:started_transaction" = none) :
    ∃ s1 w1 evs,
      cycle u c ch scope w = Except.ok (s1, w1)
      ∧ w1.trace = w.trace ++ evs
      ∧ (startTimesTaken evs).Nodup
      ∧ (∀ st ∈ startTimesTaken evs,
          ((segmentsEnded evs).map (fun seg => seg.StartTime)).count st = 1)
      ∧ (∀ seg ∈ segmentsEnded evs, seg.StartTime ∈ startTimesTaken evs)
      ∧ segmentsBuilt evs = segmentsEnded evs := by
  rcases hbag with ⟨t, htxn⟩ | ⟨htxn, hstart⟩
  · refine ⟨_, _, _, cycle_bound u c ch scope w t htxn, rfl, ?_⟩
    cases hflag : scope.InstanceGet "gorm:started_transaction" with
    | none =>
      simp [cycleEvents, startTimesTaken, segmentsEnded, segmentsBuilt, afterSegment]
    | some flag =>
      cases hcr : ch.hasCommitOrRollback with
      | false => rw [hquery hcr] at hflag; cases hflag
      | true =>
        simp [cycleEvents, startTimesTaken, segmentsEnded, segmentsBuilt, afterSegment,
          commitSegment, hcr]
  · exact ⟨_, _, [], cycle_unbound u c ch scope w htxn hstart, by simp, by
      simp [startTimesTaken, segmentsEnded, segmentsBuilt]⟩

/-- Witness of C9: a create call with an implicit transaction, and a query call,
both at stamp 7. -/
theorem C9_started_segments_closed_once_witness :
    ((((∃ t, startedScope.Get txnGormKey = some (Value.transaction t))
          ∨ (startedScope.Get txnGormKey = none ∧ startedScope.Get startTimeKey = none))
        ∧ (Chain.create.hasCommitOrRollback = false
          → startedScope.InstanceGet "gorm:started_transaction" = none))
      ∧ ∃ s1 w1 evs, cycle id ⟨DatastoreMSSQL⟩ Chain.create startedScope ⟨7, []⟩
            = Except.ok (s1, w1)
          ∧ w1.trace = [] ++ evs
          ∧ (∀ st ∈ startTimesTaken evs,
              ((segmentsEnded evs).map (fun seg => seg.StartTime)).count st = 1))
    ∧ ((((∃ t, plainScope.Get txnGormKey = some (Value.transaction t))
          ∨ (plainScope.Get txnGormKey = none ∧ plainScope.Get startTimeKey = none))
        ∧ (Chain.query.hasCommitOrRollback = false
          → plainScope.InstanceGet "gorm:started_transaction" = none))
      ∧ ∃ s1 w1 evs, cycle id ⟨DatastoreMSSQL⟩ Chain.query plainScope ⟨7, []⟩
            = Except.ok (s1, w1)
          ∧ w1.trace = [] ++ evs
          ∧ (∀ st ∈ startTimesTaken evs,
              ((segmentsEnded evs).map (fun seg => seg.StartTime)).count st = 1)) :=
  ⟨⟨⟨Or.inl ⟨⟨1⟩, by decide⟩, by decide⟩,
      match C9_started_segments_closed_once id ⟨DatastoreMSSQL⟩ startedScope ⟨7, []⟩
        Chain.create (Or.inl ⟨⟨1⟩, by decide⟩) (by decide) with
      | ⟨s1, w1, evs, hcy, htr, _, hcount, _, _⟩ => ⟨s1, w1, evs, hcy, htr, hcount⟩⟩,
    ⟨⟨Or.inl ⟨⟨1⟩, by decide⟩, fun _ => by decide⟩,
      match C9_started_segments_closed_once id ⟨DatastoreMSSQL⟩ plainScope ⟨7, []⟩
        Chain.query (Or.inl ⟨⟨1⟩, by decide⟩) (fun _ => by decide) with
      | ⟨s1, w1, evs, hcy, htr, _, hcount, _, _⟩ => ⟨s1, w1, evs, hcy, htr, hcount⟩⟩⟩

/-- C10: take any finite chain of calls, each with its own scope instance id,
made one after the other on the settings the previous cycle left behind,
starting from settings in which the transaction is bound or from settings
with neither transaction nor marker (the package never unbinds or binds it in
between). Then every hook of every cycle returns normally (no type assertion
fails), every segment built in a cycle has a start time handed out in that same
cycle, and the events of each cycle and the final agent state are those obtained
when each call is made on a fresh clone of the initial settings. -/
theorem C10_chained_cycles_as_fresh (u : Char → Char) (c : callbacks)
    (values0 : String → Option Value) (w : World) (calls : List Call)
    (hbag : (∃ t, values0 txnGormKey = some (Value.transaction t))
      ∨ (values0 txnGormKey = none ∧ values0 startTimeKey = none))
    (hids : (calls.map Call.instanceID).Nodup) :
    ∃ traces values1 w1,
      runCalls u c values0 w calls = Except.ok (traces, values1, w1)
      ∧ runCallsFresh u c values0 w calls = Except.ok (traces, w1)
      ∧ traces.length = calls.length
      ∧ ∀ evs ∈ traces, ∀ seg ∈ segmentsBuilt evs, seg.StartTime ∈ startTimesTaken evs :=
  runCalls_as_fresh u c values0 calls values0 w rfl
    (hbag.imp id (fun h => ⟨h.1, h.2, h.2⟩)) (fun _ _ => rfl) hids

/-- Witness of C10: three chained calls with the transaction bound. -/
theorem C10_chained_cycles_as_fresh_witness :
    (((∃ t, boundValues txnGormKey = some (Value.transaction t))
        ∨ (boundValues txnGormKey = none ∧ boundValues startTimeKey = none))
      ∧ (chainedCalls.map Call.instanceID).Nodup)
    ∧ ∃ traces values1 w1,
        runCalls id ⟨DatastoreSQLite⟩ boundValues ⟨0, []⟩ chainedCalls
          = Except.ok (traces, values1, w1)
        ∧ runCallsFresh id ⟨DatastoreSQLite⟩ boundValues ⟨0, []⟩ chainedCalls
          = Except.ok (traces, w1)
        ∧ traces.length = 3 :=
  ⟨⟨Or.inl ⟨⟨1⟩, by decide⟩, by decide⟩,
    match C10_chained_cycles_as_fresh id ⟨DatastoreSQLite⟩ boundValues ⟨0, []⟩ chainedCalls
      (Or.inl ⟨⟨1⟩, by decide⟩) (by decide) with
    | ⟨traces, values1, w1, h1, h2, h3, _⟩ => ⟨traces, values1, w1, h1, h2, h3⟩⟩

/-! ## Claims on the context carrier -/

open nrcontext in
theorem Heap.parent_lt (heap : Heap) (hwf : heap.wellFormed = true) (i : Nat)
    (node : ContextNode) (p : Nat) (hnode : heap[i]? = some node)
    (hp : node.parent = some p) : p < i := by
  have hi : i < heap.length := by
    rcases Nat.lt_or_ge i heap.length with h | h
    · exact h
    · rw [List.getElem?_eq_none h] at hnode
      cases hnode
  have h := (List.all_eq_true.mp hwf) i (List.mem_range.mpr hi)
  simp only [hnode, hp, decide_eq_true_eq] at h
  exact h

open nrcontext in
theorem lookup_append (heap : Heap) (node : ContextNode) (key : Key)
    (hwf : heap.wellFormed = true) :
    ∀ (fuel c : Nat), c < heap.length →
      lookup (heap ++ [node]) fuel c key = lookup heap fuel c key := by
  intro fuel
  induction fuel with
  | zero => intro c _; rfl
  | succ fuel ih =>
    intro c hc
    have hget : (heap ++ [node])[c]? = heap[c]? := List.getElem?_append_left hc
    simp only [lookup, hget]
    cases hn : heap[c]? with
    | none => rfl
    | some n =>
      cases n with
      | emptyCtx => rfl
      | valueCtx parent k val =>
        have hp : parent < c := Heap.parent_lt heap hwf c _ parent hn rfl
        simp only [ih parent (Nat.lt_trans hp hc)]
      | cancelCtx parent =>
        have hp : parent < c := Heap.parent_lt heap hwf c _ parent hn rfl
        simp only [ih parent (Nat.lt_trans hp hc)]

open nrcontext in
theorem lookup_fuel (heap : Heap) (key : Key) (hwf : heap.wellFormed = true) :
    ∀ (fuel1 fuel2 c : Nat), c < fuel1 → c < fuel2 →
      lookup heap fuel1 c key = lookup heap fuel2 c key := by
  intro fuel1
  induction fuel1 with
  | zero => intro fuel2 c h1 _; exact absurd h1 (Nat.not_lt_zero c)
  | succ fuel1 ih =>
    intro fuel2 c h1 h2
    cases fuel2 with
    | zero => exact absurd h2 (Nat.not_lt_zero c)
    | succ fuel2 =>
      simp only [lookup]
      cases hn : heap[c]? with
      | none => rfl
      | some n =>
        cases n with
        | emptyCtx => rfl
        | valueCtx parent k val =>
          have hp : parent < c := Heap.parent_lt heap hwf c _ parent hn rfl
          simp only [ih fuel2 parent (by omega) (by omega)]
        | cancelCtx parent =>
          have hp : parent < c := Heap.parent_lt heap hwf c _ parent hn rfl
          simp only [ih fuel2 parent (by omega) (by omega)]

open nrcontext in
theorem lookup_new (heap : Heap) (parent : Nat) (k key : Key) (val : NewrelicContext.Value)
    (fuel : Nat) :
    lookup (heap ++ [ContextNode.valueCtx parent k val]) (fuel + 1) heap.length key
      = if k = key then val
        else lookup (heap ++ [ContextNode.valueCtx parent k val]) fuel parent key := by
  simp [lookup]

open nrcontext in
theorem lookup_not_transaction (heap : Heap) :
    ∀ (fuel c : Nat), handleOnChain heap fuel c = false →
      ∀ t, lookup heap fuel c txnKey ≠ NewrelicContext.Value.transaction t := by
  intro fuel
  induction fuel with
  | zero => intro c _ t h; cases h
  | succ fuel ih =>
    intro c hno t
    simp only [lookup]
    simp only [handleOnChain] at hno
    cases hn : heap[c]? with
    | none => intro h; cases h
    | some n =>
      rw [hn] at hno
      cases n with
      | emptyCtx => intro h; cases h
      | valueCtx parent k val =>
        simp only [Bool.or_eq_false_iff, Bool.and_eq_false_iff] at hno
        by_cases hk : k = txnKey
        · simp only [hk, if_true]
          intro hv
          rw [hv] at hno
          simp [hk] at hno
        · simp only [hk, if_false]
          exact ih parent hno.2 t
      | cancelCtx parent => exact ih parent hno t

/-- C4: in a heap of contexts built by allocation, for every context `c`
(whatever it carries already) and every handle `h`, reading the transaction from
the context that `ContextWithTxn` returns yields `h`; every lookup on the parent
`c` yields after the attachment what it yielded before, and so does reading its
transaction; and under every key other than the transaction key the new context
yields what its parent yields. -/
theorem C4_attach_then_read (heap : nrcontext.Heap) (c : Nat) (h : Transaction)
    (key : nrcontext.Key) (hwf : heap.wellFormed = true) (hc : c < heap.length) :
    nrcontext.GetTnxFromContext (nrcontext.ContextWithTxn heap c h).1
        (nrcontext.ContextWithTxn heap c h).2 = Except.ok h
    ∧ nrcontext.Value (nrcontext.ContextWithTxn heap c h).1 c key = nrcontext.Value heap c key
    ∧ nrcontext.GetTnxFromContext (nrcontext.ContextWithTxn heap c h).1 c
        = nrcontext.GetTnxFromContext heap c
    ∧ (key ≠ nrcontext.txnKey →
        nrcontext.Value (nrcontext.ContextWithTxn heap c h).1
          (nrcontext.ContextWithTxn heap c h).2 key = nrcontext.Value heap c key) := by
  refine ⟨?_, ?_, ?_, ?_⟩
  · simp only [nrcontext.GetTnxFromContext, nrcontext.ContextWithTxn, nrcontext.WithValue,
      nrcontext.Value, lookup_new, if_true]
    rfl
  · exact lookup_append heap _ key hwf (c + 1) c hc
  · simp only [nrcontext.GetTnxFromContext, nrcontext.ContextWithTxn, nrcontext.WithValue,
      nrcontext.Value]
    rw [lookup_append heap _ nrcontext.txnKey hwf (c + 1) c hc]
  · intro hkey
    simp only [nrcontext.ContextWithTxn, nrcontext.WithValue, nrcontext.Value, lookup_new,
      if_neg (Ne.symm hkey)]
    rw [lookup_append heap _ key hwf heap.length c hc]
    exact lookup_fuel heap key hwf heap.length (c + 1) c hc (Nat.lt_succ_self c)

/-- Witness of C4: the handle 2 attached to a context that carries the handle 1. -/
theorem C4_attach_then_read_witness :
    (carryingHeap.wellFormed = true ∧ 1 < carryingHeap.length)
    ∧ nrcontext.GetTnxFromContext (nrcontext.ContextWithTxn carryingHeap 1 ⟨2⟩).1
        (nrcontext.ContextWithTxn carryingHeap 1 ⟨2⟩).2 = Except.ok ⟨2⟩
    ∧ nrcontext.GetTnxFromContext (nrcontext.ContextWithTxn carryingHeap 1 ⟨2⟩).1 1
        = nrcontext.GetTnxFromContext carryingHeap 1 :=
  ⟨⟨by decide, by decide⟩,
    (C4_attach_then_read carryingHeap 1 ⟨2⟩ nrcontext.txnKey (by decide) (by decide)).1,
    (C4_attach_then_read carryingHeap 1 ⟨2⟩ nrcontext.txnKey (by decide) (by decide)).2.2.1⟩

/-- C5: on a context on whose chain no transaction handle was attached,
`GetTnxFromContext` panics with a failed type assertion and returns no handle,
and `SetTxnToGorm` and `WrapRedisClient` of the root package panic in the same
way instead of returning a db or a client; on any context each of the two
wrappers panics exactly when `GetTnxFromContext` does, with the same panic. -/
theorem C5_read_without_handle_fails (heap : nrcontext.Heap) (ctx : Nat) (db : DB)
    (client : nrredis.Client)
    (hno : nrcontext.handleOnChain heap (ctx + 1) ctx = false) :
    nrcontext.GetTnxFromContext heap ctx
        = Except.error (Panic.interfaceConversion "newrelic.Transaction")
    ∧ (∀ t, nrcontext.GetTnxFromContext heap ctx ≠ Except.ok t)
    ∧ nrcontext.SetTxnToGorm heap ctx db
        = Except.error (Panic.interfaceConversion "newrelic.Transaction")
    ∧ nrcontext.WrapRedisClient heap ctx client
        = Except.error (Panic.interfaceConversion "newrelic.Transaction")
    ∧ (∀ (heap1 : nrcontext.Heap) (ctx1 : Nat) (p : Panic),
        (nrcontext.SetTxnToGorm heap1 ctx1 db = Except.error p
          ↔ nrcontext.GetTnxFromContext heap1 ctx1 = Except.error p)
        ∧ (nrcontext.WrapRedisClient heap1 ctx1 client = Except.error p
          ↔ nrcontext.GetTnxFromContext heap1 ctx1 = Except.error p)) := by
  have hget : nrcontext.GetTnxFromContext heap ctx
      = Except.error (Panic.interfaceConversion "newrelic.Transaction") := by
    have hnt := lookup_not_transaction heap (ctx + 1) ctx hno
    unfold nrcontext.GetTnxFromContext nrcontext.Value
    cases hv : nrcontext.lookup heap (ctx + 1) ctx nrcontext.txnKey with
    | transaction t => exact absurd hv (hnt t)
    | nil => rfl
    | segmentStartTime t => rfl
    | bool b => rfl
    | other tag => rfl
  refine ⟨hget, ?_, ?_, ?_, ?_⟩
  · intro t ht
    rw [hget] at ht
    cases ht
  · simp [nrcontext.SetTxnToGorm, hget]
  · simp [nrcontext.WrapRedisClient, hget]
  · intro heap1 ctx1 p
    unfold nrcontext.SetTxnToGorm nrcontext.WrapRedisClient
    cases nrcontext.GetTnxFromContext heap1 ctx1 with
    | error q => simp
    | ok t => simp

/-- Witness of C5: a context derived from a context without handle. -/
theorem C5_read_without_handle_fails_witness :
    nrcontext.handleOnChain plainHeap (2 + 1) 2 = false
    ∧ nrcontext.GetTnxFromContext plainHeap 2
        = Except.error (Panic.interfaceConversion "newrelic.Transaction")
    ∧ nrcontext.SetTxnToGorm plainHeap 2 postgresDB
        = Except.error (Panic.interfaceConversion "newrelic.Transaction") :=
  ⟨by decide,
    (C5_read_without_handle_fails plainHeap 2 postgresDB idleClient (by decide)).1,
    (C5_read_without_handle_fails plainHeap 2 postgresDB idleClient (by decide)).2.2.1⟩

/-! ## Claim on the registration -/

/-- C6: for the dialects postgres, mysql, sqlite3 and mssql, mapped to the
categories Postgres, MySQL, SQLite and MSSQL, `AddGormCallbacks` adds exactly
thirteen registrations, all with callbacks of the mapped category: on each of
the chains create, query, update, delete and row_query the before-hook of the
chain before the ORM callback of the chain and the after-hook after it, and on
create, update and delete also the commit-or-rollback hook after the ORM
callback that commits or rolls back; so the hooks on a chain are the hooks of
its cycle. Dialect and settings are untouched. For every other dialect name the
db is returned as it is. -/
theorem C6_AddGormCallbacks_installs (db : DB) (d : String) (p : DatastoreProduct) :
    ((d, p) ∈ [("postgres", DatastorePostgres), ("mysql", DatastoreMySQL),
        ("sqlite3", DatastoreSQLite), ("mssql", DatastoreMSSQL)] →
      db.dialect = d →
      (AddGormCallbacks db).callbacks = db.callbacks ++
        [⟨Chain.create, "gorm:create", "", "newrelic:create_before", ⟨p⟩, Hook.beforeCreate⟩,
         ⟨Chain.create, "", "gorm:create", "newrelic:create_after", ⟨p⟩, Hook.afterCreate⟩,
         ⟨Chain.create, "", "gorm:commit_or_rollback_transaction",
           "newrelic:commit_or_rollback_transaction_create", ⟨p⟩, Hook.commitOrRollback⟩,
         ⟨Chain.query, "gorm:query", "", "newrelic:query_before", ⟨p⟩, Hook.beforeQuery⟩,
         ⟨Chain.query, "", "gorm:query", "newrelic:query_after", ⟨p⟩, Hook.afterQuery⟩,
         ⟨Chain.update, "gorm:update", "", "newrelic:update_before", ⟨p⟩, Hook.beforeUpdate⟩,
         ⟨Chain.update, "", "gorm:update", "newrelic:update_after", ⟨p⟩, Hook.afterUpdate⟩,
         ⟨Chain.update, "", "gorm:commit_or_rollback_transaction",
           "newrelic:commit_or_rollback_transaction_update", ⟨p⟩, Hook.commitOrRollback⟩,
         ⟨Chain.delete, "gorm:delete", "", "newrelic:delete_before", ⟨p⟩, Hook.beforeDelete⟩,
         ⟨Chain.delete, "", "gorm:delete", "newrelic:delete_after", ⟨p⟩, Hook.afterDelete⟩,
         ⟨Chain.delete, "", "gorm:commit_or_rollback_transaction",
           "newrelic:commit_or_rollback_transaction_delete", ⟨p⟩, Hook.commitOrRollback⟩,
         ⟨Chain.row_query, "gorm:row_query", "", "newrelic:row_query_before", ⟨p⟩,
           Hook.beforeRowQuery⟩,
         ⟨Chain.row_query, "", "gorm:row_query", "newrelic:row_query_after", ⟨p⟩,
           Hook.afterRowQuery⟩]
      ∧ (∀ ch : Chain,
          (((AddGormCallbacks db).callbacks.drop db.callbacks.length).filter
              (fun cp => cp.kind = ch)).map (fun cp => (cp.receiver, cp.processor))
            = ch.hooks.map (fun h => ((⟨p⟩ : callbacks), h)))
      ∧ (AddGormCallbacks db).dialect = db.dialect
      ∧ (AddGormCallbacks db).values = db.values)
    ∧ (db.dialect ∉ ["postgres", "mysql", "sqlite3", "mssql"] → AddGormCallbacks db = db) := by
  constructor
  · intro hmem hd
    have hcb : (AddGormCallbacks db).callbacks = db.callbacks ++
        [⟨Chain.create, "gorm:create", "", "newrelic:create_before", ⟨p⟩, Hook.beforeCreate⟩,
         ⟨Chain.create, "", "gorm:create", "newrelic:create_after", ⟨p⟩, Hook.afterCreate⟩,
         ⟨Chain.create, "", "gorm:commit_or_rollback_transaction",
           "newrelic:commit_or_rollback_transaction_create", ⟨p⟩, Hook.commitOrRollback⟩,
         ⟨Chain.query, "gorm:query", "", "newrelic:query_before", ⟨p⟩, Hook.beforeQuery⟩,
         ⟨Chain.query, "", "gorm:query", "newrelic:query_after", ⟨p⟩, Hook.afterQuery⟩,
         ⟨Chain.update, "gorm:update", "", "newrelic:update_before", ⟨p⟩, Hook.beforeUpdate⟩,
         ⟨Chain.update, "", "gorm:update", "newrelic:update_after", ⟨p⟩, Hook.afterUpdate⟩,
         ⟨Chain.update, "", "gorm:commit_or_rollback_transaction",
           "newrelic:commit_or_rollback_transaction_update", ⟨p⟩, Hook.commitOrRollback⟩,
         ⟨Chain.delete, "gorm:delete", "", "newrelic:delete_before", ⟨p⟩, Hook.beforeDelete⟩,
         ⟨Chain.delete, "", "gorm:delete", "newrelic:delete_after", ⟨p⟩, Hook.afterDelete⟩,
         ⟨Chain.delete, "", "gorm:commit_or_rollback_transaction",
           "newrelic:commit_or_rollback_transaction_delete", ⟨p⟩, Hook.commitOrRollback⟩,
         ⟨Chain.row_query, "gorm:row_query", "", "newrelic:row_query_before", ⟨p⟩,
           Hook.beforeRowQuery⟩,
         ⟨Chain.row_query, "", "gorm:row_query", "newrelic:row_query_after", ⟨p⟩,
           Hook.afterRowQuery⟩] := by
      simp only [List.mem_cons, Prod.mk.injEq, List.mem_singleton, List.not_mem_nil,
        or_false] at hmem
      rcases hmem with ⟨h1, h2⟩ | ⟨h1, h2⟩ | ⟨h1, h2⟩ | ⟨h1, h2⟩ <;> subst h1 <;> subst h2 <;>
        simp [AddGormCallbacks, hd, registerCallbacks, newCallbacks, DB.RegisterBefore,
          DB.RegisterAfter]
    refine ⟨hcb, ?_, ?_, ?_⟩
    · intro ch
      rw [hcb, List.drop_left]
      cases ch <;> rfl
    · simp only [List.mem_cons, Prod.mk.injEq, List.mem_singleton, List.not_mem_nil,
        or_false] at hmem
      rcases hmem with ⟨h1, h2⟩ | ⟨h1, h2⟩ | ⟨h1, h2⟩ | ⟨h1, h2⟩ <;> subst h1 <;> subst h2 <;>
        simp [AddGormCallbacks, hd, registerCallbacks, newCallbacks, DB.RegisterBefore,
          DB.RegisterAfter]
    · simp only [List.mem_cons, Prod.mk.injEq, List.mem_singleton, List.not_mem_nil,
        or_false] at hmem
      rcases hmem with ⟨h1, h2⟩ | ⟨h1, h2⟩ | ⟨h1, h2⟩ | ⟨h1, h2⟩ <;> subst h1 <;> subst h2 <;>
        simp [AddGormCallbacks, hd, registerCallbacks, newCallbacks, DB.RegisterBefore,
          DB.RegisterAfter]
  · intro hnot
    simp only [List.mem_cons, List.mem_singleton, List.not_mem_nil, or_false, not_or] at hnot
    simp [AddGormCallbacks, hnot.1, hnot.2.1, hnot.2.2.1, hnot.2.2.2]

/-- Witness of C6: on a postgres db the hooks on the create chain are the before-hook,
the after-hook and the commit-or-rollback hook, bound to the category Postgres. -/
theorem C6_AddGormCallbacks_installs_witness :
    ((("postgres", DatastorePostgres) ∈ [("postgres", DatastorePostgres),
        ("mysql", DatastoreMySQL), ("sqlite3", DatastoreSQLite), ("mssql", DatastoreMSSQL)])
      ∧ postgresDB.dialect = "postgres")
    ∧ (((AddGormCallbacks postgresDB).callbacks.drop postgresDB.callbacks.length).filter
          (fun cp => cp.kind = Chain.create)).map (fun cp => (cp.receiver, cp.processor))
        = [(⟨DatastorePostgres⟩, Hook.beforeCreate), (⟨DatastorePostgres⟩, Hook.afterCreate),
           (⟨DatastorePostgres⟩, Hook.commitOrRollback)] :=
  ⟨⟨by decide, rfl⟩,
    ((C6_AddGormCallbacks_installs postgresDB "postgres" DatastorePostgres).1
      (by decide) rfl).2.1 Chain.create⟩

/-! ## Claim on the cache client -/

/-- C8, as stated, fails. For a command whose textual form is `GET`, tab, `key1`
the wrapped dispatch function builds a segment whose operation is the whole
text, while the first whitespace-delimited token is `GET`. A command `GET key1`
queued on a pipeline of the wrapped client is executed without any segment.
And on a client on which a stub dispatch was installed before, the wrapped
client returns the error of the built-in dispatch, not the one of the stub. -/
theorem C8_wrapped_dispatch_counterexample :
    ((segmentsBuilt ((nrredis.WrapRedisClient ⟨1⟩ failingClient).Process ⟨"GET\tkey1"⟩
          ⟨0, []⟩).2.trace).map (fun seg => seg.Operation) = ["GET\tkey1"]
      ∧ firstWhitespaceToken (nrredis.Cmder.String ⟨"GET\tkey1"⟩) = "GET"
      ∧ (segmentsBuilt ((nrredis.WrapRedisClient ⟨1⟩ failingClient).Process ⟨"GET\tkey1"⟩
          ⟨0, []⟩).2.trace).map (fun seg => seg.Operation)
          ≠ [firstWhitespaceToken (nrredis.Cmder.String ⟨"GET\tkey1"⟩)])
    ∧ ((nrredis.WrapRedisClient ⟨1⟩ failingClient).Pipelined [⟨"GET key1"⟩] ⟨0, []⟩
          = (some ⟨"dial tcp: connection refused"⟩, ⟨0, []⟩)
      ∧ segmentsBuilt ((nrredis.WrapRedisClient ⟨1⟩ failingClient).Pipelined [⟨"GET key1"⟩]
          ⟨0, []⟩).2.trace = [])
    ∧ (stubbedClient.Process ⟨"GET key1"⟩ ⟨0, []⟩
          = (some ⟨"stub dispatch: refused"⟩, ⟨0, []⟩)
      ∧ ((nrredis.WrapRedisClient ⟨1⟩ stubbedClient).Process ⟨"GET key1"⟩ ⟨0, []⟩).1
          = some ⟨"dial tcp: connection refused"⟩) := by
  refine ⟨⟨?_, ?_, ?_⟩, ⟨?_, ?_⟩, ⟨?_, ?_⟩⟩ <;> decide

/-- C8, amended: for every transaction, client (with or without a dispatch
installed on it before), command and agent state, dispatching the command
through `Process` of the client returned by `WrapRedisClient` of nrredis first
takes a start time and builds one segment of category Redis whose operation is
the part of the textual form of the command before its first space character,
then runs the dispatch function the library hands to the wrapper, which is the
built-in dispatch of the client, then ends that segment once, and returns the
error value that dispatch returned (nil or an error). When that dispatch adds
the events `evs`, the wrapped one adds the start, the built segment, `evs` and
the ended segment, in this order. The operation is the first
whitespace-delimited token whenever the text does not start with a space and
has no other whitespace before its first space; it is `GET` for `GET key1`.
Commands queued on a pipeline of the returned client are executed as on the
client that was wrapped, without any segment of the wrapper. -/
theorem C8_wrapped_dispatch (txn : Transaction) (c : nrredis.Client) (cmd : nrredis.Cmder)
    (w : World) :
    (nrredis.WrapRedisClient txn c).Process cmd w
      = ((c.defaultProcess cmd (afterOpening txn cmd w)).1,
          ⟨(c.defaultProcess cmd (afterOpening txn cmd w)).2.stamp,
           (c.defaultProcess cmd (afterOpening txn cmd w)).2.trace
            ++ [Event.ended (openedSegment txn cmd w)]⟩)
    ∧ (afterOpening txn cmd w).trace
        = w.trace ++ [Event.started ⟨txn, w.stamp⟩, Event.built (openedSegment txn cmd w)]
    ∧ (openedSegment txn cmd w).Product = DatastoreRedis
    ∧ (openedSegment txn cmd w).Operation = beforeFirstSpace cmd.String
    ∧ ((nrredis.WrapRedisClient txn c).Process cmd w).1
        = (c.defaultProcess cmd (afterOpening txn cmd w)).1
    ∧ (∀ evs, (c.defaultProcess cmd (afterOpening txn cmd w)).2.trace
          = (afterOpening txn cmd w).trace ++ evs →
        ((nrredis.WrapRedisClient txn c).Process cmd w).2.trace
          = w.trace ++ ([Event.started ⟨txn, w.stamp⟩,
              Event.built (openedSegment txn cmd w)]
            ++ evs ++ [Event.ended (openedSegment txn cmd w)]))
    ∧ (cmd.String.data.head? ≠ some ' '
        → (∀ ch ∈ cmd.String.data.takeWhile (fun ch => ch ≠ ' '), ch.isWhitespace = false)
        → (openedSegment txn cmd w).Operation = firstWhitespaceToken cmd.String)
    ∧ (cmd.String = "GET key1" → (openedSegment txn cmd w).Operation = "GET")
    ∧ (∀ cmds, (nrredis.WrapRedisClient txn c).Pipelined cmds w = c.Pipelined cmds w) := by
  have hrun : (nrredis.WrapRedisClient txn c).Process cmd w
      = ((c.defaultProcess cmd (afterOpening txn cmd w)).1,
          ⟨(c.defaultProcess cmd (afterOpening txn cmd w)).2.stamp,
           (c.defaultProcess cmd (afterOpening txn cmd w)).2.trace
            ++ [Event.ended (openedSegment txn cmd w)]⟩) := by
    simp [nrredis.WrapRedisClient, nrredis.Client.WrapProcess, nrredis.Client.WithContext,
      nrredis.Client.Process, nrredis.segmentBuilder, Transaction.StartSegmentNow,
      World.emit, DatastoreSegment.End, splitSpaceFirst_eq, afterOpening, openedSegment]
  refine ⟨hrun, rfl, rfl, rfl, by rw [hrun], ?_, ?_, ?_, ?_⟩
  · intro evs hevs
    rw [hrun]
    show (c.defaultProcess cmd (afterOpening txn cmd w)).2.trace
        ++ [Event.ended (openedSegment txn cmd w)] = _
    rw [hevs]
    simp only [afterOpening, List.append_assoc]
  · exact beforeFirstSpace_eq_token cmd.String
  · intro h
    simp only [openedSegment, h]
    decide
  · intro cmds
    rfl

/-- Witness of C8: the command `GET key1` on a client whose dispatch fails, on that
client wrapped twice (one segment, of the second transaction), and on the client
with a stub dispatch installed before (the stub is not called). -/
theorem C8_wrapped_dispatch_witness :
    (nrredis.WrapRedisClient ⟨1⟩ failingClient).Process ⟨"GET key1"⟩ ⟨0, []⟩
      = (some ⟨"dial tcp: connection refused"⟩,
          ⟨1, [Event.started ⟨⟨1⟩, 0⟩,
            Event.built ⟨⟨⟨1⟩, 0⟩, DatastoreRedis, "", "GET", ""⟩,
            Event.ended ⟨⟨⟨1⟩, 0⟩, DatastoreRedis, "", "GET", ""⟩]⟩)
    ∧ (nrredis.WrapRedisClient ⟨2⟩ (nrredis.WrapRedisClient ⟨1⟩ failingClient)).Process
        ⟨"GET key1"⟩ ⟨0, []⟩
      = (some ⟨"dial tcp: connection refused"⟩,
          ⟨1, [Event.started ⟨⟨2⟩, 0⟩,
            Event.built ⟨⟨⟨2⟩, 0⟩, DatastoreRedis, "", "GET", ""⟩,
            Event.ended ⟨⟨⟨2⟩, 0⟩, DatastoreRedis, "", "GET", ""⟩]⟩)
    ∧ (nrredis.WrapRedisClient ⟨1⟩ stubbedClient).Process ⟨"GET key1"⟩ ⟨0, []⟩
      = (some ⟨"dial tcp: connection refused"⟩,
          ⟨1, [Event.started ⟨⟨1⟩, 0⟩,
            Event.built ⟨⟨⟨1⟩, 0⟩, DatastoreRedis, "", "GET", ""⟩,
            Event.ended ⟨⟨⟨1⟩, 0⟩, DatastoreRedis, "", "GET", ""⟩]⟩) :=
  ⟨(C8_wrapped_dispatch ⟨1⟩ failingClient ⟨"GET key1"⟩ ⟨0, []⟩).1.trans (by decide),
    (C8_wrapped_dispatch ⟨2⟩ (nrredis.WrapRedisClient ⟨1⟩ failingClient) ⟨"GET key1"⟩
      ⟨0, []⟩).1.trans (by decide),
    (C8_wrapped_dispatch ⟨1⟩ stubbedClient ⟨"GET key1"⟩ ⟨0, []⟩).1.trans (by decide)⟩

end NewrelicContext
